import Mathlib

/-!
Verification development for the `api-versioning` request-interception layer.

The definitions below are a shallow embedding of the Python sources under
`src/api_versioning/`: pure functions become Lean functions, mutable objects
become explicit state records threaded through the operations, Python floats
used as timestamps become rationals, `datetime.date` becomes a `Date` record
with the proleptic Gregorian ordinal, and raised exceptions become `Except`
values.  Python `dict[str, Any]` values coming from YAML / `to_dict` are
embedded as association lists over a small value type `JVal`.
-/

namespace ApiVersioning

/-! ## Python string primitives -/

/-- ASCII lowercasing, as performed by `bytes.lower()` on header names. -/
def asciiLower (s : String) : String :=
  String.mk (s.data.map fun c =>
    if 'A' ≤ c ∧ c ≤ 'Z' then Char.ofNat (c.toNat + 32) else c)

/-- ASCII uppercasing, modelling `str.upper()` on the ASCII source names. -/
def asciiUpper (s : String) : String :=
  String.mk (s.data.map fun c =>
    if 'a' ≤ c ∧ c ≤ 'z' then Char.ofNat (c.toNat - 32) else c)

/-- The whitespace codepoints stripped by Python `str.strip()`. -/
def pyIsSpace (c : Char) : Bool :=
  c.toNat ∈ [9, 10, 11, 12, 13, 28, 29, 30, 31, 32, 0x85, 0xA0, 0x1680,
    0x2000, 0x2001, 0x2002, 0x2003, 0x2004, 0x2005, 0x2006, 0x2007, 0x2008,
    0x2009, 0x200A, 0x2028, 0x2029, 0x202F, 0x205F, 0x3000]

/-- Python `str.strip()`: remove leading and trailing whitespace. -/
def pyStrip (s : String) : String :=
  String.mk (((s.data.dropWhile pyIsSpace).reverse.dropWhile pyIsSpace).reverse)

deriving instance DecidableEq for Except

/-! ## Python stable sorting -/

/-- Insert `x` after every element strictly smaller under `le`, keeping it
before ties: the insertion step of a stable sort. -/
def pyInsert (le : α → α → Bool) (x : α) : List α → List α
  | [] => [x]
  | y :: ys => if le y x && !le x y then y :: pyInsert le x ys else x :: y :: ys

/-- Python's `sorted(...)`: a stable sort by the comparison `le`, embedded as
a structurally recursive stable insertion sort. -/
def pySorted (le : α → α → Bool) : List α → List α
  | [] => []
  | x :: xs => pyInsert le x (pySorted le xs)

theorem mem_pyInsert (le : α → α → Bool) (x a : α) (l : List α) :
    a ∈ pyInsert le x l ↔ a = x ∨ a ∈ l := by
  induction l with
  | nil => simp [pyInsert]
  | cons y ys ih =>
    simp only [pyInsert]
    split
    · simp [ih]
      tauto
    · simp

theorem mem_pySorted (le : α → α → Bool) (a : α) (l : List α) :
    a ∈ pySorted le l ↔ a ∈ l := by
  induction l with
  | nil => simp [pySorted]
  | cons x xs ih => simp [pySorted, mem_pyInsert, ih]

theorem length_pyInsert (le : α → α → Bool) (x : α) (l : List α) :
    (pyInsert le x l).length = l.length + 1 := by
  induction l with
  | nil => simp [pyInsert]
  | cons y ys ih =>
    simp only [pyInsert]
    split <;> simp [ih]

theorem length_pySorted (le : α → α → Bool) (l : List α) :
    (pySorted le l).length = l.length := by
  induction l with
  | nil => rfl
  | cons x xs ih => simp [pySorted, length_pyInsert, ih]

theorem pairwise_pyInsert (le : α → α → Bool)
    (trans : ∀ a b c, le a b = true → le b c = true → le a c = true)
    (total : ∀ a b, le a b = true ∨ le b a = true) (x : α) (l : List α)
    (h : l.Pairwise (fun a b => le a b = true)) :
    (pyInsert le x l).Pairwise (fun a b => le a b = true) := by
  induction l with
  | nil => simp [pyInsert]
  | cons y ys ih =>
    rcases List.pairwise_cons.mp h with ⟨hy, hys⟩
    simp only [pyInsert]
    split
    · rename_i hcond
      rw [Bool.and_eq_true, Bool.not_eq_true'] at hcond
      refine List.pairwise_cons.mpr ⟨?_, ih hys⟩
      intro a ha
      rcases (mem_pyInsert le x a ys).mp ha with rfl | ha
      · exact hcond.1
      · exact hy a ha
    · rename_i hcond
      rw [Bool.and_eq_true, Bool.not_eq_true'] at hcond
      push_neg at hcond
      have hxy : le x y = true := by
        rcases total x y with h1 | h1
        · exact h1
        · simpa using hcond h1
      refine List.pairwise_cons.mpr ⟨?_, h⟩
      intro a ha
      rcases List.mem_cons.mp ha with rfl | ha
      · exact hxy
      · exact trans x y a hxy (hy a ha)

theorem pairwise_pySorted (le : α → α → Bool)
    (trans : ∀ a b c, le a b = true → le b c = true → le a c = true)
    (total : ∀ a b, le a b = true ∨ le b a = true) (l : List α) :
    (pySorted le l).Pairwise (fun a b => le a b = true) := by
  induction l with
  | nil => simp [pySorted]
  | cons x xs ih => exact pairwise_pyInsert le trans total x _ ih

/-! ## Dates (`datetime.date`) -/

/-- A calendar date, embedding `datetime.date`. -/
structure Date where
  year : Nat
  month : Nat
  day : Nat
deriving DecidableEq, Repr

/-- Gregorian leap-year rule. -/
def isLeapYear (y : Nat) : Bool :=
  y % 4 == 0 && (y % 100 != 0 || y % 400 == 0)

/-- Number of days in month `m` of year `y`. -/
def daysInMonth (y m : Nat) : Nat :=
  if m = 2 then (if isLeapYear y then 29 else 28)
  else if m = 4 ∨ m = 6 ∨ m = 9 ∨ m = 11 then 30
  else 31

/-- Validity of a date value, as maintained by `datetime.date`'s constructor
(years restricted to `1..9999` as in CPython). -/
def Date.validB (d : Date) : Bool :=
  1 ≤ d.year && d.year ≤ 9999 && 1 ≤ d.month && d.month ≤ 12 &&
    1 ≤ d.day && d.day ≤ daysInMonth d.year d.month

/-- Days in year `y` that precede month `m`. -/
def daysBeforeMonth (y m : Nat) : Nat :=
  (List.range (m - 1)).foldl (fun acc i => acc + daysInMonth y (i + 1)) 0

/-- Proleptic Gregorian ordinal of a date (`date.toordinal`), so that date
subtraction `(a - b).days` is the difference of ordinals. -/
def Date.toOrdinal (d : Date) : Int :=
  let py : Nat := d.year - 1
  365 * (py : Int) + ((py / 4 : Nat) : Int) - ((py / 100 : Nat) : Int)
    + ((py / 400 : Nat) : Int) + ((daysBeforeMonth d.year d.month : Nat) : Int)
    + (d.day : Int)

/-- `(a - b).days` for two dates. -/
def dateDiffDays (a b : Date) : Int :=
  a.toOrdinal - b.toOrdinal

/-- Python date comparison `a < b` (lexicographic on year, month, day). -/
def Date.ltB (a b : Date) : Bool :=
  a.year < b.year ||
    (a.year == b.year && (a.month < b.month ||
      (a.month == b.month && a.day < b.day)))

/-- ASCII digit character for `n < 10`. -/
def digitChar (n : Nat) : Char := Char.ofNat (48 + n)

/-- Numeric value of an ASCII digit character. -/
def charDigit (c : Char) : Nat := c.toNat - 48

/-- `date.isoformat()`: zero-padded `YYYY-MM-DD`. -/
def Date.isoformat (d : Date) : String :=
  String.mk [digitChar (d.year / 1000), digitChar (d.year / 100 % 10),
    digitChar (d.year / 10 % 10), digitChar (d.year % 10), '-',
    digitChar (d.month / 10), digitChar (d.month % 10), '-',
    digitChar (d.day / 10), digitChar (d.day % 10)]

/-- `str.startswith(prefix)` on the URL checks, via character lists (the
byte-based `String.startsWith` of the Lean library does not evaluate inside
the kernel). -/
def strStartsWith (s pre : String) : Bool := pre.data.isPrefixOf s.data

/-- `date.fromisoformat` on the canonical `YYYY-MM-DD` form: `none` models the
`ValueError` raised on malformed input or an invalid calendar date. -/
def fromisoformat (s : String) : Option Date :=
  match s.data with
  | [y1, y2, y3, y4, h1, m1, m2, h2, d1, d2] =>
    if y1.isDigit && y2.isDigit && y3.isDigit && y4.isDigit &&
        h1 == '-' && h2 == '-' && m1.isDigit && m2.isDigit &&
        d1.isDigit && d2.isDigit then
      let y := 1000 * charDigit y1 + 100 * charDigit y2 + 10 * charDigit y3 + charDigit y4
      let m := 10 * charDigit m1 + charDigit m2
      let d := 10 * charDigit d1 + charDigit d2
      let dt : Date := ⟨y, m, d⟩
      if dt.validB then some dt else none
    else none
  | _ => none

theorem digitChar_spec : ∀ n, n < 10 →
    (digitChar n).isDigit = true ∧ charDigit (digitChar n) = n := by decide

/-- Serialising a valid date and parsing it back is the identity. -/
theorem fromisoformat_isoformat (d : Date) (h : d.validB = true) :
    fromisoformat d.isoformat = some d := by
  obtain ⟨y, m, dd⟩ := d
  have hb : ((((1 ≤ y ∧ y ≤ 9999) ∧ 1 ≤ m) ∧ m ≤ 12) ∧ 1 ≤ dd) ∧ dd ≤ daysInMonth y m := by
    simpa [Date.validB, Bool.and_eq_true, decide_eq_true_iff] using h
  obtain ⟨⟨⟨⟨⟨hb1, hb2⟩, hb3⟩, hb4⟩, hb5⟩, hb6⟩ := hb
  have hdm : daysInMonth y m ≤ 31 := by
    unfold daysInMonth
    split <;> [split <;> omega; skip]
    split <;> omega
  have hy1 : y / 1000 < 10 := by omega
  have hy2 : y / 100 % 10 < 10 := by omega
  have hy3 : y / 10 % 10 < 10 := by omega
  have hy4 : y % 10 < 10 := by omega
  have hm1 : m / 10 < 10 := by omega
  have hm2 : m % 10 < 10 := by omega
  have hd1 : dd / 10 < 10 := by omega
  have hd2 : dd % 10 < 10 := by omega
  unfold Date.isoformat fromisoformat
  simp only [String.data]
  simp only [(digitChar_spec _ hy1).1, (digitChar_spec _ hy2).1,
    (digitChar_spec _ hy3).1, (digitChar_spec _ hy4).1,
    (digitChar_spec _ hm1).1, (digitChar_spec _ hm2).1,
    (digitChar_spec _ hd1).1, (digitChar_spec _ hd2).1,
    (digitChar_spec _ hy1).2, (digitChar_spec _ hy2).2,
    (digitChar_spec _ hy3).2, (digitChar_spec _ hy4).2,
    (digitChar_spec _ hm1).2, (digitChar_spec _ hm2).2,
    (digitChar_spec _ hd1).2, (digitChar_spec _ hd2).2,
    Bool.and_self, Bool.true_and, beq_self_eq_true, if_true]
  have ey : 1000 * (y / 1000) + 100 * (y / 100 % 10) + 10 * (y / 10 % 10) + y % 10 = y := by
    omega
  have em : 10 * (m / 10) + m % 10 = m := by omega
  have ed : 10 * (dd / 10) + dd % 10 = dd := by omega
  simp only [ey, em, ed, h, if_true]

/-! ## Version lifecycle status (`core/version.py`) -/

/-- Lifecycle status of an API version (`VersionStatus`). -/
inductive VersionStatus
  | current
  | deprecated
  | sunset
  | prerelease
deriving DecidableEq, Repr

/-- The wire value of a status (`VersionStatus.value`). -/
def VersionStatus.value : VersionStatus → String
  | .current => "current"
  | .deprecated => "deprecated"
  | .sunset => "sunset"
  | .prerelease => "prerelease"

/-- `VersionStatus(status_str)`: `none` models the `ValueError` raised on an
unknown status string. -/
def parseVersionStatus (s : String) : Option VersionStatus :=
  if s = "current" then some .current
  else if s = "deprecated" then some .deprecated
  else if s = "sunset" then some .sunset
  else if s = "prerelease" then some .prerelease
  else none

/-- Lowercase ASCII letter test, matching the regex class `[a-z]`. -/
def isLowerAZ (c : Char) : Bool := 'a' ≤ c && c ≤ 'z'

/-- Core of the regex `^v[0-9]+(-[a-z]+)?$` applied to a list of characters. -/
def matchVersionChars (l : List Char) : Bool :=
  match l with
  | 'v' :: rest =>
    let ds := rest.takeWhile Char.isDigit
    let tail := rest.dropWhile Char.isDigit
    !ds.isEmpty &&
      (tail.isEmpty ||
        (match tail with
         | '-' :: ls => !ls.isEmpty && ls.all isLowerAZ
         | _ => false))
  | _ => false

/-- `VERSION_ID_PATTERN.match(s)` as a Boolean: Python's `$` also matches just
before a single trailing newline, so that case is included. -/
def pyMatchVersionId (s : String) : Bool :=
  matchVersionChars s.data ||
    (s.data.getLast? == some '\x0a' && matchVersionChars s.data.dropLast)

/-! ## VersionMetadata (`core/version.py`) -/

/-- Immutable metadata for an API version (`VersionMetadata` dataclass). -/
structure VersionMetadata where
  version_id : String
  status : VersionStatus
  release_date : Date
  deprecation_date : Option Date := none
  sunset_date : Option Date := none
  description : String := ""
  supported_features : List String := []
  breaking_changes_from : Option String := none
  migration_guide_url : Option String := none
  opt_in_required : Bool := false
deriving DecidableEq, Repr

/-- `VersionMetadata(...)` together with its `__post_init__` validation: the
checks run in source order and the first failing one raises (`Except.error`). -/
def mkVersionMetadata (version_id : String) (status : VersionStatus)
    (release_date : Date) (deprecation_date : Option Date := none)
    (sunset_date : Option Date := none) (description : String := "")
    (supported_features : List String := [])
    (breaking_changes_from : Option String := none)
    (migration_guide_url : Option String := none)
    (opt_in_required : Bool := false) : Except String VersionMetadata :=
  if ¬ pyMatchVersionId version_id then
    .error ("Invalid version_id " ++ version_id)
  else if status = .deprecated ∧ deprecation_date = none then
    .error ("Version " ++ version_id ++ " has status DEPRECATED but deprecation_date is not set")
  else if status = .sunset ∧ sunset_date = none then
    .error ("Version " ++ version_id ++ " has status SUNSET but sunset_date is not set")
  else if (match deprecation_date with
           | some dd => Date.ltB dd release_date
           | none => false) then
    .error ("Version " ++ version_id ++ ": release_date must be before deprecation_date")
  else
    let urlCheck : Except String VersionMetadata :=
      match migration_guide_url with
      | some u =>
        if u ≠ "" ∧ ¬ (strStartsWith u "http://" = true ∨
            strStartsWith u "https://" = true ∨ strStartsWith u "/" = true) then
          .error ("Version " ++ version_id ++ ": migration_guide_url must be an absolute URL or relative path")
        else
          .ok ⟨version_id, status, release_date, deprecation_date, sunset_date,
            description, supported_features, breaking_changes_from,
            migration_guide_url, opt_in_required⟩
      | none =>
        .ok ⟨version_id, status, release_date, deprecation_date, sunset_date,
          description, supported_features, breaking_changes_from,
          migration_guide_url, opt_in_required⟩
    match sunset_date with
    | some sd =>
      match deprecation_date with
      | none =>
        .error ("Version " ++ version_id ++ ": sunset_date is set but deprecation_date is not set")
      | some dd =>
        if Date.ltB sd dd then
          .error ("Version " ++ version_id ++ ": deprecation_date must be before sunset_date")
        else if dateDiffDays sd dd < 365 then
          .error ("Version " ++ version_id ++ ": sunset_date must be at least 12 months after deprecation_date")
        else urlCheck
    | none => urlCheck

/-- `metadata.is_deprecated()`. -/
def VersionMetadata.is_deprecated (m : VersionMetadata) : Bool :=
  m.status = .deprecated ∨ m.status = .sunset

/-- `metadata.is_prerelease()`. -/
def VersionMetadata.is_prerelease (m : VersionMetadata) : Bool :=
  m.status = .prerelease

/-! ## Python dict values (`dict[str, Any]`) -/

/-- The dictionary values that flow through `to_dict` and the YAML
configuration entries. -/
inductive JVal
  | jstr (s : String)
  | jnull
  | jbool (b : Bool)
  | jlist (xs : List String)
deriving DecidableEq, Repr

/-- Python truthiness of a dict value (`if data.get(...)`). -/
def JVal.truthy : JVal → Bool
  | .jstr s => !(s == "")
  | .jnull => false
  | .jbool b => b
  | .jlist xs => !xs.isEmpty

/-- A Python dict with string keys, as an association list in insertion
order (keys are unique for every dict the code builds). -/
abbrev PyDict := List (String × JVal)

/-- `data.get(key)` / `key in data`. -/
def pyGet (d : PyDict) (k : String) : Option JVal :=
  (d.find? (fun p => p.1 == k)).map (·.2)

/-- `VersionMetadata.to_dict()`. -/
def VersionMetadata.to_dict (m : VersionMetadata) : PyDict :=
  [("version_id", .jstr m.version_id),
   ("status", .jstr m.status.value),
   ("release_date", .jstr m.release_date.isoformat),
   ("deprecation_date",
     match m.deprecation_date with
     | some d => .jstr d.isoformat
     | none => .jnull),
   ("sunset_date",
     match m.sunset_date with
     | some d => .jstr d.isoformat
     | none => .jnull),
   ("description", .jstr m.description),
   ("supported_features",
     .jlist (pySorted (fun a b : String => a ≤ b) m.supported_features)),
   ("breaking_changes_from",
     match m.breaking_changes_from with
     | some s => .jstr s
     | none => .jnull),
   ("migration_guide_url",
     match m.migration_guide_url with
     | some s => .jstr s
     | none => .jnull),
   ("opt_in_required", .jbool m.opt_in_required)]

/-! ## Registry metadata parsing (`core/registry.py`) -/

/-- `VersionRegistry._parse_date`: ISO-8601 parsing with a wrapped error. -/
def parseDateField (v : JVal) (field_name : String) : Except String Date :=
  match v with
  | .jstr s =>
    match fromisoformat s with
    | some d => .ok d
    | none => .error ("Invalid date format for " ++ field_name)
  | _ => .error ("Invalid date format for " ++ field_name)

/-- An optional date field read via `data.get(name)` with Python truthiness:
absent, null or empty values yield `none`. -/
def parseOptionalDate (d : PyDict) (name : String) : Except String (Option Date) :=
  match pyGet d name with
  | some v =>
    if v.truthy then (parseDateField v name).map some else .ok none
  | none => .ok none

/-- `VersionRegistry._parse_version_metadata(version_id, data)`. -/
def parse_version_metadata (version_id : String) (data : PyDict) :
    Except String VersionMetadata :=
  match pyGet data "status" with
  | none => .error "Missing required field: status"
  | some sv =>
  match pyGet data "release_date" with
  | none => .error "Missing required field: release_date"
  | some rv =>
  match (match sv with | .jstr s => parseVersionStatus s | _ => none) with
  | none => .error "Invalid status"
  | some status =>
  match parseDateField rv "release_date" with
  | .error e => .error e
  | .ok release_date =>
  match parseOptionalDate data "deprecation_date" with
  | .error e => .error e
  | .ok deprecation_date =>
  match parseOptionalDate data "sunset_date" with
  | .error e => .error e
  | .ok sunset_date =>
  let description := match pyGet data "description" with
    | some (.jstr s) => s
    | _ => ""
  let supported_features := (match pyGet data "supported_features" with
    | some (.jlist xs) => xs
    | _ => []).eraseDups
  let breaking_changes_from := match pyGet data "breaking_changes_from" with
    | some (.jstr s) => some s
    | _ => none
  let migration_guide_url := match pyGet data "migration_guide_url" with
    | some (.jstr s) => some s
    | _ => none
  let opt_in_required := match pyGet data "opt_in_required" with
    | some (.jbool b) => b
    | _ => false
  mkVersionMetadata version_id status release_date deprecation_date sunset_date
    description supported_features breaking_changes_from migration_guide_url
    opt_in_required

/-! ## Version registry (`core/registry.py`) -/

/-- The registry's class-level state: the version mapping plus provenance. -/
structure RegState where
  versions : List (String × VersionMetadata)
  config_path : Option String
  last_loaded : Option Nat
  config_checksum : Option String
deriving DecidableEq, Repr

/-- The parse loop of `load_from_file`: builds every `VersionMetadata` in
configuration order, wrapping the first failure. -/
def parseAllVersions : List (String × PyDict) →
    Except String (List (String × VersionMetadata))
  | [] => .ok []
  | (vid, d) :: rest =>
    match parse_version_metadata vid d with
    | .error e => .error ("Failed to parse version " ++ vid ++ ": " ++ e)
    | .ok md =>
      match parseAllVersions rest with
      | .error e => .error e
      | .ok ms => .ok ((vid, md) :: ms)

/-- The `breaking_changes_from` reference check of `load_from_file`: returns
the first dangling reference, skipping falsy (`None`/empty) values. -/
def refsCheck (keys : List String) :
    List (String × VersionMetadata) → Option String
  | [] => none
  | (_, md) :: rest =>
    match md.breaking_changes_from with
    | some r => if r ≠ "" ∧ r ∉ keys then some r else refsCheck keys rest
    | none => refsCheck keys rest

/-- The pure validation pipeline of `load_from_file` on the `versions`
mapping: emptiness check, per-version parsing, the exactly-one-current
check, and the reference check, failing on the first violation. -/
def loadCompute (cfg : List (String × PyDict)) :
    Except String (List (String × VersionMetadata)) :=
  if cfg.isEmpty then
    .error "Configuration must contain at least one version"
  else
    match parseAllVersions cfg with
    | .error e => .error e
    | .ok versions =>
      let current_versions :=
        (versions.filter (fun p => p.2.status == VersionStatus.current)).map (·.1)
      if current_versions.length = 0 then
        .error "Configuration must have exactly one version with status current"
      else if current_versions.length > 1 then
        .error "Multiple current versions detected"
      else
        match refsCheck (versions.map (·.1)) versions with
        | some r => .error ("references non-existent version in breaking_changes_from: " ++ r)
        | none => .ok versions

/-- `VersionRegistry.load_from_file`: the class attributes are assigned only
after every validation passed, so on failure the prior state is returned
untouched; the second component carries the raised error. -/
def load_from_file (st : RegState) (cfg : List (String × PyDict))
    (path checksum : String) (now : Nat) : RegState × Option String :=
  match loadCompute cfg with
  | .ok vs => (⟨vs, some path, some now, some checksum⟩, none)
  | .error e => (st, some e)

/-- `VersionRegistry.get_version(version_id)`. -/
def get_version (st : RegState) (version_id : String) : Option VersionMetadata :=
  (st.versions.find? (fun p => p.1 == version_id)).map (·.2)

/-- `VersionRegistry.get_current_version()`: first mapping value with status
`current`. -/
def get_current_version (st : RegState) : Option VersionMetadata :=
  (st.versions.find? (fun p => p.2.status == VersionStatus.current)).map (·.2)

/-- `VersionRegistry.list_active_versions`. -/
def list_active_versions (st : RegState) (include_prerelease : Bool := false)
    (include_sunset : Bool := false) : List VersionMetadata :=
  pySorted (fun a b => a.version_id ≤ b.version_id)
    ((st.versions.map (·.2)).filter (fun md =>
      !(md.status == VersionStatus.sunset && !include_sunset) &&
      !(md.status == VersionStatus.prerelease && !include_prerelease)))

/-- Number of configuration entries whose raw `status` field is `"current"`. -/
def rawCurrentCount (cfg : List (String × PyDict)) : Nat :=
  (cfg.filter (fun p => pyGet p.2 "status" == some (JVal.jstr "current"))).length

/-! ## Version specifications (`middleware/parser.py`) -/

/-- Source of a version specification (`SpecificationSource`). -/
inductive SpecificationSource
  | header
  | url_path
  | query_param
  | dflt
deriving DecidableEq, Repr

/-- The enum's string value (the `default` member is named `dflt` here only
because `default` is reserved in Lean). -/
def SpecificationSource.value : SpecificationSource → String
  | .header => "header"
  | .url_path => "url_path"
  | .query_param => "query_param"
  | .dflt => "default"

/-- How a consumer specified their desired version (`VersionSpecification`). -/
structure VersionSpecification where
  version_id : String
  source : SpecificationSource
  raw_value : String
  precedence_rank : Nat
deriving DecidableEq, Repr

/-! ## Precedence resolution (`middleware/precedence.py`) -/

/-- `_format_source_detail`. -/
def format_source_detail (s : VersionSpecification) : String :=
  match s.source with
  | .header => "X-API-Version or API-Version header"
  | .url_path => "URL path segment"
  | .query_param => "version query parameter"
  | .dflt => s.source.value

/-- `_format_conflict_message`. -/
def format_conflict_message (source : SpecificationSource)
    (specs : List VersionSpecification) : String :=
  let version_list := String.intercalate ", " (specs.map (·.version_id))
  match source with
  | .header =>
    "Contradictory version headers detected: " ++ version_list ++
      ". Multiple version headers present with different values."
  | .url_path =>
    "Contradictory version URL paths detected: " ++ version_list ++
      ". This should not happen in normal usage."
  | .query_param =>
    "Contradictory version query parameters detected: " ++ version_list ++
      ". Multiple version parameters present with different values."
  | .dflt =>
    "Contradictory version specifications from " ++
      (source.value.replace "_" " ") ++ ": " ++ version_list

/-- The structured payload of `VersionConflictError`: the message and the
`detected_specifications` detail entries (source, value, from). -/
structure VersionConflictErrorS where
  message : String
  conflicting_specs : List (String × String × String)
deriving DecidableEq, Repr

/-- `_check_same_source_conflicts`: group the specifications by source and
fail on the first source (in first-occurrence order, as a Python dict
iterates) holding two or more differing values.  Grouping a dict of lists by
key is embedded as filtering by each specification's source; `len(set(ids))`
is the `Finset` card of the ids. -/
def check_same_source_conflicts (specs : List VersionSpecification) :
    Option VersionConflictErrorS :=
  match specs.find? (fun s =>
      let g := specs.filter (fun t => t.source == s.source)
      g.length > 1 && ((g.map (·.version_id)).toFinset.card > 1)) with
  | none => none
  | some s =>
    let g := specs.filter (fun t => t.source == s.source)
    some ⟨format_conflict_message s.source g,
      g.map (fun t => (asciiUpper t.source.value, t.version_id, format_source_detail t))⟩

/-- `resolve_version_precedence(specs, default_version)`: empty input yields
the default; otherwise check same-source conflicts, sort by rank (Python's
stable sort) and take the first element. -/
def resolve_version_precedence (specs : List VersionSpecification)
    (default_version : String) : Except VersionConflictErrorS String :=
  if specs.isEmpty then .ok default_version
  else
    match check_same_source_conflicts specs with
    | some e => .error e
    | none =>
      match pySorted (fun a b => a.precedence_rank ≤ b.precedence_rank) specs with
      | [] => .ok default_version
      | s :: _ => .ok s.version_id

/-! ## Request extraction (`middleware/parser.py`) -/

/-- The HTTP parts of an ASGI scope consumed by extraction: path, raw query
string, and the header pair list (bytes embedded as strings). -/
structure Scope where
  path : String
  query_string : String
  headers : List (String × String)
deriving DecidableEq, Repr

/-- `dict(pairs)`: later values override earlier ones, the key keeps its
first-insertion position. -/
def pyDictOfPairs (ps : List (String × String)) : List (String × String) :=
  ps.foldl (fun acc p =>
    if acc.any (fun q => q.1 == p.1) then
      acc.map (fun q => if q.1 == p.1 then (q.1, p.2) else q)
    else acc ++ [p]) []

/-- `_extract_from_header`: first recognized header name (case-insensitive)
whose stripped value is non-empty wins; empty values are skipped and the
scan continues. -/
def extract_from_header : List (String × String) → Option VersionSpecification
  | [] => none
  | (n, v) :: rest =>
    if asciiLower n == "x-api-version" || asciiLower n == "api-version" then
      let version_id := pyStrip v
      if version_id ≠ "" then
        some ⟨version_id, .header, version_id, 1⟩
      else extract_from_header rest
    else extract_from_header rest

/-- `_extract_from_url`: the regex `^/v(\d+(?:-[a-z]+)?)/` applied to the
path, including its backtracking behaviour (the optional suffix group is
dropped only if a slash follows the digits directly, which never helps). -/
def extract_from_url (path : String) : Option VersionSpecification :=
  match path.data with
  | c1 :: c2 :: rest =>
    if c1 = '/' ∧ c2 = 'v' then
      let ds := rest.takeWhile Char.isDigit
      let tail := rest.dropWhile Char.isDigit
      if ds.isEmpty then none
      else
        match tail with
        | t :: ts =>
          if t = '/' then
            let version_id := "v" ++ String.mk ds
            some ⟨version_id, .url_path, version_id, 2⟩
          else if t = '-' then
            let ltrs := ts.takeWhile isLowerAZ
            if !ltrs.isEmpty && ((ts.drop ltrs.length).head? == some '/') then
              let version_id := "v" ++ String.mk (ds ++ '-' :: ltrs)
              some ⟨version_id, .url_path, version_id, 2⟩
            else none
          else none
        | [] => none
    else none
  | _ => none

/-- Numeric value of a hexadecimal digit. -/
def hexVal (c : Char) : Nat :=
  if c.isDigit then c.toNat - 48
  else if 'a' ≤ c ∧ c ≤ 'f' then c.toNat - 87
  else if 'A' ≤ c ∧ c ≤ 'F' then c.toNat - 55
  else 0

/-- Hexadecimal digit test. -/
def isHexDigitC (c : Char) : Bool :=
  c.isDigit || ('a' ≤ c && c ≤ 'f') || ('A' ≤ c && c ≤ 'F')

/-- `urllib.parse.unquote_plus` on ASCII data: plus signs become spaces and
valid percent escapes are decoded. -/
def unquotePlus : List Char → List Char
  | [] => []
  | '+' :: rest => ' ' :: unquotePlus rest
  | '%' :: h1 :: h2 :: rest =>
    if isHexDigitC h1 && isHexDigitC h2 then
      Char.ofNat (hexVal h1 * 16 + hexVal h2) :: unquotePlus rest
    else '%' :: unquotePlus (h1 :: h2 :: rest)
  | '%' :: rest => '%' :: unquotePlus rest
  | c :: rest => c :: unquotePlus rest
termination_by l => l.length

/-- `urllib.parse.parse_qsl` with default arguments: split on `&`, split each
part on the first `=`, skip parts without `=` and parts with an empty value,
unquote names and values. -/
def parse_qsl (s : String) : List (String × String) :=
  (s.splitOn "&").filterMap fun part =>
    match part.splitOn "=" with
    | [_] => none
    | [] => none
    | name :: valParts =>
      let value := String.intercalate "=" valParts
      if value = "" then none
      else some (String.mk (unquotePlus name.data), String.mk (unquotePlus value.data))

/-- `urllib.parse.parse_qs`: group the pair list into a dict of lists. -/
def parse_qs (s : String) : List (String × List String) :=
  (parse_qsl s).foldl (fun acc p =>
    if acc.any (fun q => q.1 == p.1) then
      acc.map (fun q => if q.1 == p.1 then (q.1, q.2 ++ [p.2]) else q)
    else acc ++ [(p.1, [p.2])]) []

/-- `_extract_from_query`. -/
def extract_from_query (query_string : String) : Option VersionSpecification :=
  if query_string = "" then none
  else
    match (parse_qs query_string).find? (fun p => p.1 == "version") with
    | some (_, v :: _) =>
      let version_id := pyStrip v
      if version_id ≠ "" then
        some ⟨version_id, .query_param, version_id, 3⟩
      else none
    | _ => none

/-- `extract_version_from_request(scope)`: header, URL-path and query
candidates in that order, each contributing at most one specification. -/
def extract_version_from_request (scope : Scope) : List VersionSpecification :=
  (extract_from_header (pyDictOfPairs scope.headers)).toList ++
    (extract_from_url scope.path).toList ++
    (extract_from_query scope.query_string).toList

/-! ## Validation utilities (`utils/validation.py`) -/

/-- `sanitize_version_id`: drop control characters (codepoint < 32 or 127),
then strip surrounding whitespace. -/
def sanitize_version_id (version_id : String) : String :=
  pyStrip (String.mk (version_id.data.filter (fun c =>
    c.toNat ≥ 32 && c.toNat ≠ 127)))

/-- `validate_version_format`: length bounds, control-character check, then
the version-id pattern, with the source's error messages. -/
def validate_version_format (version_id : String) (max_length : Nat := 20) :
    Bool × Option String :=
  if version_id.length < 2 then
    (false, some "Version identifier must be at least 2 characters")
  else if version_id.length > max_length then
    (false, some "Version identifier must be 2-20 characters")
  else if version_id.data.any (fun c => c.toNat < 32 || c.toNat == 127) then
    (false, some "Version identifier contains invalid control characters")
  else if ¬ pyMatchVersionId version_id then
    (false, some "Version identifier must match the version-id pattern")
  else (true, none)

/-- `validate_sunset_window(deprecation_date, sunset_date)` from
`utils/validation.py`. -/
def validate_sunset_window (deprecation_date sunset_date : Date)
    (minimum_days : Int := 365) : Bool × Option String :=
  if dateDiffDays sunset_date deprecation_date < minimum_days then
    (false, some "sunset_date must be at least 12 months after deprecation_date")
  else (true, none)

/-! ## Deprecation and sunset handling (`handlers/deprecation.py`) -/

/-- `is_sunset(metadata, today)`: sunset status, or a sunset date strictly in
the past. -/
def is_sunset (metadata : VersionMetadata) (today : Date) : Bool :=
  if metadata.status = VersionStatus.sunset then true
  else
    match metadata.sunset_date with
    | none => false
    | some sd => Date.ltB sd today

/-! ## Prerelease access control (`handlers/prerelease.py`) -/

/-- ASCII model of `str.lower()` for the opt-in comparison. -/
def pyLower (s : String) : String := asciiLower s

/-- `check_prerelease_access(metadata, opt_in_value)`: the error value carries
the version id, as `PrereleaseOptInRequiredError` does. -/
def check_prerelease_access (metadata : VersionMetadata)
    (opt_in_value : Option String) : Except String Unit :=
  if ¬ metadata.is_prerelease then .ok ()
  else if ¬ metadata.opt_in_required then .ok ()
  else
    match opt_in_value with
    | none => .error metadata.version_id
    | some v => if pyLower v ≠ "true" then .error metadata.version_id else .ok ()

/-- `extract_opt_in_header(headers)`. -/
def extract_opt_in_header : List (String × String) → Option String
  | [] => none
  | (n, v) :: rest =>
    if asciiLower n == "x-api-prerelease-opt-in" then some v
    else extract_opt_in_header rest

/-! ## Middleware pipeline (`middleware/__init__.py`) -/

/-- The payload of `VersionSunsetError` as constructed by the middleware. -/
structure VersionSunsetErrorS where
  version_id : String
  sunset_date : String
  recommended_version : Option String
  migration_guide_url : Option String
deriving DecidableEq, Repr

/-- Outcome of `APIVersionMiddleware.__call__` on an HTTP request, up to the
point where control would pass to the wrapped application. -/
inductive MWResult
  | invalid_format (msg : String)
  | not_found (version_id : String) (available : List String)
  | sunset_rejection (e : VersionSunsetErrorS)
  | prerelease_rejection (version_id : String)
  | internal_error
  | success (version_id : String) (md : VersionMetadata)
deriving DecidableEq, Repr

/-- The decision sequence of `APIVersionMiddleware.__call__`: extraction,
precedence resolution (whose conflict error is swallowed by the generic
handler), sanitisation, format validation, registry lookup, sunset check and
prerelease check, in source order with early exit. -/
def middlewareProcess (st : RegState) (default_version : String)
    (scope : Scope) (today : Date) : MWResult :=
  match resolve_version_precedence (extract_version_from_request scope) default_version with
  | .error _ => .internal_error
  | .ok vid0 =>
    let version_id := sanitize_version_id vid0
    match validate_version_format version_id with
    | (false, msg) => .invalid_format (msg.getD "Invalid version format")
    | (true, _) =>
      match get_version st version_id with
      | none => .not_found version_id ((list_active_versions st).map (·.version_id))
      | some metadata =>
        if is_sunset metadata today then
          .sunset_rejection ⟨version_id,
            (match metadata.sunset_date with
             | some sd => sd.isoformat
             | none => "unknown"),
            metadata.breaking_changes_from, metadata.migration_guide_url⟩
        else if metadata.is_prerelease then
          match check_prerelease_access metadata
              (extract_opt_in_header (pyDictOfPairs scope.headers)) with
          | .error v => .prerelease_rejection v
          | .ok _ => .success version_id metadata
        else .success version_id metadata

/-! ## Rate limiter (`security/rate_limit.py`) -/

/-- `RateLimitConfig`. -/
structure RateLimitConfig where
  requests_per_minute : Nat
  burst_capacity : Nat
  window_seconds : Nat := 60
deriving DecidableEq, Repr

/-- `RateLimitState` for one consumer; timestamps are rationals standing for
`time.time()` floats. -/
structure RateLimitState where
  request_count : Nat
  window_start : ℚ
  last_request : ℚ
deriving DecidableEq, Repr

/-- `RateLimitResult`. -/
structure RateLimitResult where
  allowed : Bool
  remaining : Int
  reset_at : ℚ
  retry_after : Option Int
deriving DecidableEq, Repr

/-- Python `int()` on a rational: truncation toward zero. -/
def pyIntTrunc (q : ℚ) : Int := if 0 ≤ q then ⌊q⌋ else ⌈q⌉

/-- The per-consumer core of `RateLimiter.check_limit`, after the
configuration was selected and the state fetched: window reset, admission
test and the mutated state. -/
def check_limit (config : RateLimitConfig) (state : RateLimitState)
    (current_time : ℚ) : RateLimitResult × RateLimitState :=
  let window_elapsed := current_time - state.window_start
  let state :=
    if window_elapsed ≥ (config.window_seconds : ℚ) then
      { state with window_start := current_time, request_count := 0 }
    else state
  if state.request_count < config.requests_per_minute then
    let state := { state with request_count := state.request_count + 1,
                              last_request := current_time }
    let remaining : Int := (config.requests_per_minute : Int) - (state.request_count : Int)
    let reset_at := state.window_start + (config.window_seconds : ℚ)
    (⟨true, remaining, reset_at, none⟩, state)
  else
    let reset_at := state.window_start + (config.window_seconds : ℚ)
    let retry_after := pyIntTrunc (reset_at - current_time)
    (⟨false, 0, reset_at, some (max 1 retry_after)⟩, state)

/-- The `RateLimiter` object: the two selectable configurations plus the
per-consumer state dict. -/
structure RateLimiter where
  authenticated_config : RateLimitConfig
  anonymous_config : RateLimitConfig
  states : List (String × RateLimitState)
deriving DecidableEq, Repr

/-- Dict lookup in the consumer-state map. -/
def lookupState (l : List (String × RateLimitState)) (k : String) :
    Option RateLimitState :=
  (l.find? (fun p => p.1 == k)).map (·.2)

/-- Dict write `states[k] = v`. -/
def setState (l : List (String × RateLimitState)) (k : String)
    (v : RateLimitState) : List (String × RateLimitState) :=
  if l.any (fun p => p.1 == k) then
    l.map (fun p => if p.1 == k then (k, v) else p)
  else l ++ [(k, v)]

/-- `RateLimiter.check_limit(consumer_id, is_authenticated)`: configuration
selection, get-or-create of the consumer state (a fresh state's fields
default to the current time), and the core check. -/
def check_limit_full (lim : RateLimiter) (consumer_id : String)
    (is_authenticated : Bool) (now : ℚ) : RateLimitResult × RateLimiter :=
  let config := if is_authenticated then lim.authenticated_config
                else lim.anonymous_config
  let st := (lookupState lim.states consumer_id).getD ⟨0, now, now⟩
  let res := check_limit config st now
  (res.1, { lim with states := setState lim.states consumer_id res.2 })

/-! ## Circuit breaker (`reliability/circuit_breaker.py`) -/

/-- `CircuitState` (the `OPEN` member is rendered `open'` because `open` is
reserved in Lean). -/
inductive CircuitState
  | closed
  | open'
  | half_open
deriving DecidableEq, Repr

/-- `CircuitBreakerConfig`. -/
structure CircuitBreakerConfig where
  failure_threshold : Nat := 5
  success_threshold : Nat := 2
  timeout_seconds : ℚ := 60
deriving DecidableEq, Repr

/-- The mutable fields of a `CircuitBreaker` instance. -/
structure CBState where
  state : CircuitState
  failure_count : Nat
  success_count : Nat
  last_failure_time : Option ℚ
deriving DecidableEq, Repr

/-- `CircuitBreaker._should_attempt_reset`. -/
def should_attempt_reset (cfg : CircuitBreakerConfig) (st : CBState)
    (now : ℚ) : Bool :=
  match st.last_failure_time with
  | none => true
  | some t => now - t ≥ cfg.timeout_seconds

/-- `CircuitBreaker._on_success`. -/
def on_success (cfg : CircuitBreakerConfig) (st : CBState) : CBState :=
  if st.state = .half_open then
    let st := { st with success_count := st.success_count + 1 }
    if st.success_count ≥ cfg.success_threshold then
      { st with state := .closed, failure_count := 0, success_count := 0 }
    else st
  else if st.state = .closed then { st with failure_count := 0 }
  else st

/-- `CircuitBreaker._on_failure`. -/
def on_failure (cfg : CircuitBreakerConfig) (st : CBState) (now : ℚ) : CBState :=
  let st := { st with last_failure_time := some now,
                      failure_count := st.failure_count + 1 }
  if st.state = .half_open then { st with state := .open', success_count := 0 }
  else if st.state = .closed ∧ st.failure_count ≥ cfg.failure_threshold then
    { st with state := .open' }
  else st

/-- `CircuitBreaker.call(func)`: the Boolean result records whether the
guarded operation was invoked (`false` models the raised
`CircuitBreakerOpen`); `outcome` tells whether the operation, when invoked,
succeeds or raises. -/
def cbCall (cfg : CircuitBreakerConfig) (st : CBState) (now : ℚ)
    (outcome : Bool) : Bool × CBState :=
  if st.state = .open' then
    if should_attempt_reset cfg st now then
      let st' := { st with state := .half_open, success_count := 0 }
      (true, if outcome then on_success cfg st' else on_failure cfg st' now)
    else (false, st)
  else (true, if outcome then on_success cfg st else on_failure cfg st now)

/-- `n` consecutive failing calls at time `now`. -/
def cbRunFailures (cfg : CircuitBreakerConfig) (now : ℚ) :
    Nat → CBState → CBState
  | 0, st => st
  | n + 1, st => cbRunFailures cfg now n (cbCall cfg st now false).2

/-- `n` consecutive succeeding calls at time `now`. -/
def cbRunSuccesses (cfg : CircuitBreakerConfig) (now : ℚ) :
    Nat → CBState → CBState
  | 0, st => st
  | n + 1, st => cbRunSuccesses cfg now n (cbCall cfg st now true).2

/-! ## Helper lemmas -/

@[simp] theorem exceptIsOk_ok (a : α) : (Except.ok a : Except ε α).isOk = true := rfl

@[simp] theorem exceptIsOk_error (e : ε) : (Except.error e : Except ε α).isOk = false := rfl

theorem mkVersionMetadata_fail_of_bad_dates (vid : String) (status : VersionStatus)
    (rd dd sd : Date) (desc : String) (feats : List String)
    (bcf mgu : Option String) (oir : Bool)
    (hviol : ¬ (Date.ltB dd rd = false ∧ Date.ltB sd dd = false ∧
      dateDiffDays sd dd ≥ 365)) :
    (mkVersionMetadata vid status rd (some dd) (some sd) desc feats bcf mgu
      oir).isOk = false := by
  simp only [mkVersionMetadata]
  split_ifs with h1 h2 h3 h4 h5 h6
  all_goals
    first
      | rfl
      | (exfalso
         apply hviol
         refine ⟨by simpa using h4, by simpa using h5, by omega⟩)

/-! ## Claim theorems -/

/-- C8: when both `deprecation_date` and `sunset_date` are present,
`VersionMetadata` construction succeeds only if
`release_date ≤ deprecation_date ≤ sunset_date` and
`sunset_date − deprecation_date ≥ 365` days, and fails whenever those date
conditions are violated; in particular deprecation `2025-01-01` with sunset
`2026-01-01` (exactly 365 days) constructs successfully while deprecation
`2025-01-01` with sunset `2025-06-01` is rejected. -/
theorem C8_sunset_window :
    (∀ (vid : String) (status : VersionStatus) (rd dd sd : Date)
        (desc : String) (feats : List String) (bcf mgu : Option String)
        (oir : Bool),
      ((mkVersionMetadata vid status rd (some dd) (some sd) desc feats bcf mgu
          oir).isOk = true →
        (Date.ltB dd rd = false ∧ Date.ltB sd dd = false ∧
          dateDiffDays sd dd ≥ 365)) ∧
      (¬ (Date.ltB dd rd = false ∧ Date.ltB sd dd = false ∧
          dateDiffDays sd dd ≥ 365) →
        (mkVersionMetadata vid status rd (some dd) (some sd) desc feats bcf
          mgu oir).isOk = false)) ∧
    (mkVersionMetadata "v1" .deprecated ⟨2024, 6, 1⟩ (some ⟨2025, 1, 1⟩)
      (some ⟨2026, 1, 1⟩)).isOk = true ∧
    (mkVersionMetadata "v1" .deprecated ⟨2024, 6, 1⟩ (some ⟨2025, 1, 1⟩)
      (some ⟨2025, 6, 1⟩)).isOk = false := by
  refine ⟨?_, by decide, by decide⟩
  intro vid status rd dd sd desc feats bcf mgu oir
  constructor
  · intro hok
    by_contra hc
    have hf := mkVersionMetadata_fail_of_bad_dates vid status rd dd sd desc feats
      bcf mgu oir hc
    rw [hok] at hf
    exact Bool.noConfusion hf
  · exact mkVersionMetadata_fail_of_bad_dates vid status rd dd sd desc feats
      bcf mgu oir

/-- Witness for C8 at the boundary example from the specification. -/
theorem C8_sunset_window_witness :
    Date.ltB ⟨2025, 1, 1⟩ ⟨2024, 6, 1⟩ = false ∧
      Date.ltB ⟨2026, 1, 1⟩ ⟨2025, 1, 1⟩ = false ∧
      dateDiffDays ⟨2026, 1, 1⟩ ⟨2025, 1, 1⟩ ≥ 365 :=
  (C8_sunset_window.1 "v1" .deprecated ⟨2024, 6, 1⟩ ⟨2025, 1, 1⟩ ⟨2026, 1, 1⟩
    "" [] none none false).1 (by decide)

/-- C7: for a prerelease version with `opt_in_required`, access is rejected
exactly when the opt-in signal is absent or not case-insensitively equal to
`"true"`; otherwise (signal present and `"true"`, or not prerelease, or
opt-in not required) the check passes. -/
theorem C7_prerelease_opt_in (md : VersionMetadata) (opt : Option String) :
    (md.status = .prerelease → md.opt_in_required = true →
      ((check_prerelease_access md opt).isOk = false ↔
        (opt = none ∨ ∀ s, opt = some s → pyLower s ≠ "true"))) ∧
    ((md.status ≠ .prerelease ∨ md.opt_in_required = false) →
      (check_prerelease_access md opt).isOk = true) := by
  constructor
  · intro hs hr
    simp only [check_prerelease_access, VersionMetadata.is_prerelease, hs, hr]
    cases opt with
    | none => simp
    | some v =>
      by_cases hv : pyLower v = "true"
      · simp [hv]
      · simp [hv]
  · intro h
    rcases h with h | h
    · simp [check_prerelease_access, VersionMetadata.is_prerelease, h]
    · simp only [check_prerelease_access, VersionMetadata.is_prerelease, h]
      split_ifs <;> simp_all

/-- Witness for C7: a prerelease version requiring opt-in, with no signal
(rejected) and with an uppercase `"TRUE"` signal (allowed). -/
theorem C7_prerelease_opt_in_witness :
    (check_prerelease_access
        ⟨"v3-beta", .prerelease, ⟨2025, 1, 1⟩, none, none, "", [], none, none,
          true⟩ none).isOk = false ∧
    (check_prerelease_access
        ⟨"v3-beta", .prerelease, ⟨2025, 1, 1⟩, none, none, "", [], none, none,
          true⟩ (some "TRUE")).isOk = true := by
  constructor
  · exact ((C7_prerelease_opt_in _ none).1 rfl rfl).mpr (Or.inl rfl)
  · have h := (C7_prerelease_opt_in
      ⟨"v3-beta", .prerelease, ⟨2025, 1, 1⟩, none, none, "", [], none, none,
        true⟩ (some "TRUE")).1 rfl rfl
    rcases hb : (check_prerelease_access
        ⟨"v3-beta", .prerelease, ⟨2025, 1, 1⟩, none, none, "", [], none, none,
          true⟩ (some "TRUE")).isOk with _ | _
    · exfalso
      rcases h.mp hb with h1 | h1
      · exact Option.noConfusion h1
      · exact h1 "TRUE" rfl (by decide)
    · rfl

theorem cbRunFailures_opens (cfg : CircuitBreakerConfig) (now : ℚ) :
    ∀ (n : Nat) (st : CBState), st.state = .closed →
      st.failure_count + n = cfg.failure_threshold → 1 ≤ n →
      (cbRunFailures cfg now n st).state = .open' := by
  intro n
  induction n with
  | zero => omega
  | succ m ih =>
    intro st hst hcount _
    obtain ⟨s, fc, sc, lft⟩ := st
    dsimp only at hst hcount
    subst hst
    rcases Nat.eq_zero_or_pos m with hm | hm
    · subst hm
      have hθ : cfg.failure_threshold ≤ fc + 1 := by omega
      simp [cbRunFailures, cbCall, on_failure, hθ]
    · have hlt : ¬ cfg.failure_threshold ≤ fc + 1 := by omega
      have hstep : (cbCall cfg ⟨.closed, fc, sc, lft⟩ now false).2 =
          ⟨.closed, fc + 1, sc, some now⟩ := by
        simp [cbCall, on_failure, hlt]
      simp only [cbRunFailures, hstep]
      exact ih ⟨.closed, fc + 1, sc, some now⟩ rfl (by dsimp only; omega) hm

theorem cbRunSuccesses_closes (cfg : CircuitBreakerConfig) (now : ℚ) :
    ∀ (n : Nat) (st : CBState), st.state = .half_open →
      st.success_count + n = cfg.success_threshold → 1 ≤ n →
      (cbRunSuccesses cfg now n st).state = .closed := by
  intro n
  induction n with
  | zero => omega
  | succ m ih =>
    intro st hst hcount _
    obtain ⟨s, fc, sc, lft⟩ := st
    dsimp only at hst hcount
    subst hst
    rcases Nat.eq_zero_or_pos m with hm | hm
    · subst hm
      have hθ : cfg.success_threshold ≤ sc + 1 := by omega
      simp [cbRunSuccesses, cbCall, on_success, hθ]
    · have hlt : ¬ cfg.success_threshold ≤ sc + 1 := by omega
      have hstep : (cbCall cfg ⟨.half_open, fc, sc, lft⟩ now true).2 =
          ⟨.half_open, fc, sc + 1, lft⟩ := by
        simp [cbCall, on_success, hlt]
      simp only [cbRunSuccesses, hstep]
      exact ih ⟨.half_open, fc, sc + 1, lft⟩ rfl (by dsimp only; omega) hm

/-- C5: the circuit breaker's step relation — reaching the failure threshold
in `closed` opens the circuit (and exactly `failure_threshold` consecutive
failures from a fresh closed state do so); while open and before the timeout
every call short-circuits without invoking the operation and leaves the
state untouched; once the timeout has elapsed the next call moves to
`half_open` (resetting the success counter) and runs the operation;
`success_threshold` consecutive successes in `half_open` close the circuit;
any failure in `half_open` reopens it; a success while closed resets the
failure count. -/
theorem C5_circuit_breaker :
    (∀ (cfg : CircuitBreakerConfig) (st : CBState) (now : ℚ),
      st.state = .closed →
      (cbCall cfg st now false).2.state =
        (if cfg.failure_threshold ≤ st.failure_count + 1 then .open'
         else .closed)) ∧
    (∀ (cfg : CircuitBreakerConfig) (st : CBState) (now : ℚ),
      1 ≤ cfg.failure_threshold → st.state = .closed →
      st.failure_count = 0 →
      (cbRunFailures cfg now cfg.failure_threshold st).state = .open') ∧
    (∀ (cfg : CircuitBreakerConfig) (st : CBState) (now t : ℚ)
        (outcome : Bool), st.state = .open' →
      st.last_failure_time = some t → now - t < cfg.timeout_seconds →
      cbCall cfg st now outcome = (false, st)) ∧
    (∀ (cfg : CircuitBreakerConfig) (st : CBState) (now t : ℚ)
        (outcome : Bool), st.state = .open' →
      st.last_failure_time = some t → cfg.timeout_seconds ≤ now - t →
      (cbCall cfg st now outcome).1 = true ∧
      (cbCall cfg st now outcome).2 =
        (if outcome then
          on_success cfg { st with state := .half_open, success_count := 0 }
         else
          on_failure cfg { st with state := .half_open, success_count := 0 }
            now)) ∧
    (∀ (cfg : CircuitBreakerConfig) (st : CBState) (now : ℚ),
      st.state = .half_open →
      (cbCall cfg st now true).2.state =
        (if cfg.success_threshold ≤ st.success_count + 1 then .closed
         else .half_open)) ∧
    (∀ (cfg : CircuitBreakerConfig) (st : CBState) (now : ℚ),
      1 ≤ cfg.success_threshold → st.state = .half_open →
      st.success_count = 0 →
      (cbRunSuccesses cfg now cfg.success_threshold st).state = .closed) ∧
    (∀ (cfg : CircuitBreakerConfig) (st : CBState) (now : ℚ),
      st.state = .half_open → (cbCall cfg st now false).2.state = .open') ∧
    (∀ (cfg : CircuitBreakerConfig) (st : CBState) (now : ℚ),
      st.state = .closed →
      (cbCall cfg st now true).2.state = .closed ∧
      (cbCall cfg st now true).2.failure_count = 0) := by
  refine ⟨?_, ?_, ?_, ?_, ?_, ?_, ?_, ?_⟩
  · intro cfg st now hst
    obtain ⟨s, fc, sc, lft⟩ := st
    dsimp only at hst
    subst hst
    by_cases hθ : cfg.failure_threshold ≤ fc + 1
    · simp [cbCall, on_failure, hθ]
    · simp [cbCall, on_failure, hθ]
  · intro cfg st now h1 hst hc
    exact cbRunFailures_opens cfg now cfg.failure_threshold st hst
      (by omega) h1
  · intro cfg st now t outcome hst hlft htime
    obtain ⟨s, fc, sc, lft⟩ := st
    dsimp only at hst hlft
    subst hst
    subst hlft
    have hreset : should_attempt_reset cfg ⟨.open', fc, sc, some t⟩ now = false := by
      simp [should_attempt_reset]
      linarith
    simp [cbCall, hreset]
  · intro cfg st now t outcome hst hlft htime
    obtain ⟨s, fc, sc, lft⟩ := st
    dsimp only at hst hlft
    subst hst
    subst hlft
    have hreset : should_attempt_reset cfg ⟨.open', fc, sc, some t⟩ now = true := by
      simp [should_attempt_reset]
      linarith
    simp [cbCall, hreset]
  · intro cfg st now hst
    obtain ⟨s, fc, sc, lft⟩ := st
    dsimp only at hst
    subst hst
    by_cases hθ : cfg.success_threshold ≤ sc + 1
    · simp [cbCall, on_success, hθ]
    · simp [cbCall, on_success, hθ]
  · intro cfg st now h1 hst hc
    exact cbRunSuccesses_closes cfg now cfg.success_threshold st hst
      (by omega) h1
  · intro cfg st now hst
    obtain ⟨s, fc, sc, lft⟩ := st
    dsimp only at hst
    subst hst
    simp [cbCall, on_failure]
  · intro cfg st now hst
    obtain ⟨s, fc, sc, lft⟩ := st
    dsimp only at hst
    subst hst
    simp [cbCall, on_success]

/-- Witness for C5: with the default configuration, five consecutive
failures open a fresh breaker, a call at 30 seconds short-circuits, and a
call at 60 seconds is admitted. -/
theorem C5_circuit_breaker_witness :
    (cbRunFailures ⟨5, 2, 60⟩ 0 5 ⟨.closed, 0, 0, none⟩).state = .open' ∧
    cbCall ⟨5, 2, 60⟩ ⟨.open', 5, 0, some 0⟩ 30 false =
      (false, ⟨.open', 5, 0, some 0⟩) ∧
    (cbCall ⟨5, 2, 60⟩ ⟨.open', 5, 0, some 0⟩ 60 true).1 = true := by
  refine ⟨?_, ?_, ?_⟩
  · exact C5_circuit_breaker.2.1 ⟨5, 2, 60⟩ ⟨.closed, 0, 0, none⟩ 0
      (by norm_num) rfl rfl
  · exact C5_circuit_breaker.2.2.1 ⟨5, 2, 60⟩ ⟨.open', 5, 0, some 0⟩ 30 0
      false rfl rfl (by norm_num)
  · exact (C5_circuit_breaker.2.2.2.1 ⟨5, 2, 60⟩ ⟨.open', 5, 0, some 0⟩ 60 0
      true rfl rfl (by norm_num)).1

/-- A sequence of `check_limit` calls against one consumer state, returning
the per-call results and the final state. -/
def runChecks (cfg : RateLimitConfig) :
    List ℚ → RateLimitState → List RateLimitResult × RateLimitState
  | [], st => ([], st)
  | t :: ts, st =>
    let r := check_limit cfg st t
    let rest := runChecks cfg ts r.2
    (r.1 :: rest.1, rest.2)

theorem check_limit_allowed_step (cfg : RateLimitConfig) (c : Nat) (ws lr t : ℚ)
    (hwin : ¬ (t - ws ≥ (cfg.window_seconds : ℚ)))
    (hc : c < cfg.requests_per_minute) :
    check_limit cfg ⟨c, ws, lr⟩ t =
      (⟨true, (cfg.requests_per_minute : Int) - ((c : Int) + 1),
        ws + (cfg.window_seconds : ℚ), none⟩, ⟨c + 1, ws, t⟩) := by
  simp [check_limit, hwin, hc]

theorem check_limit_reject_step (cfg : RateLimitConfig) (c : Nat) (ws lr t : ℚ)
    (hwin : ¬ (t - ws ≥ (cfg.window_seconds : ℚ)))
    (hc : ¬ c < cfg.requests_per_minute) :
    check_limit cfg ⟨c, ws, lr⟩ t =
      (⟨false, 0, ws + (cfg.window_seconds : ℚ),
        some (max 1 (pyIntTrunc (ws + (cfg.window_seconds : ℚ) - t)))⟩,
       ⟨c, ws, lr⟩) := by
  simp [check_limit, hwin, hc]

theorem runChecks_window_spec (cfg : RateLimitConfig) :
    ∀ (ts : List ℚ) (st : RateLimitState),
      (∀ t ∈ ts, t - st.window_start < (cfg.window_seconds : ℚ)) →
      ((runChecks cfg ts st).1.map (·.allowed) =
        (List.range ts.length).map
          (fun i => decide (st.request_count + i < cfg.requests_per_minute))) ∧
      (runChecks cfg ts st).2.window_start = st.window_start := by
  intro ts
  induction ts with
  | nil => intro st _; simp [runChecks]
  | cons t ts ih =>
    intro st h
    obtain ⟨c, ws, lr⟩ := st
    have ht : t - ws < (cfg.window_seconds : ℚ) := by
      simpa using h t (List.mem_cons_self t ts)
    have hno : ¬ (t - ws ≥ (cfg.window_seconds : ℚ)) := by linarith
    have hrest : ∀ u ∈ ts, u - ws < (cfg.window_seconds : ℚ) := by
      intro u hu
      simpa using h u (List.mem_cons_of_mem t hu)
    by_cases hc : c < cfg.requests_per_minute
    · have hstep := check_limit_allowed_step cfg c ws lr t hno hc
      have hih := ih ⟨c + 1, ws, t⟩ (by simpa using hrest)
      constructor
      · simp only [runChecks, hstep, List.map_cons, List.length_cons,
          List.range_succ_eq_map, List.map_map]
        refine congrArg₂ _ (by simpa using hc) ?_
        rw [hih.1]
        refine List.map_congr_left ?_
        intro i _
        simp only [Function.comp]
        rw [decide_eq_decide]
        omega
      · simp only [runChecks, hstep]
        simpa using hih.2
    · have hstep := check_limit_reject_step cfg c ws lr t hno hc
      have hih := ih ⟨c, ws, lr⟩ hrest
      constructor
      · simp only [runChecks, hstep, List.map_cons, List.length_cons,
          List.range_succ_eq_map, List.map_map]
        refine congrArg₂ _ (by simpa using hc) ?_
        rw [hih.1]
        refine List.map_congr_left ?_
        intro i _
        simp only [Function.comp]
        have h1 : ¬ (c + i < cfg.requests_per_minute) := by omega
        have h2 : ¬ (c + (i + 1) < cfg.requests_per_minute) := by omega
        simp [h1, h2]
      · simp only [runChecks, hstep]
        exact hih.2

/-- C6 counterexample: the claim says a rejection returns
`retry_after = ceil(reset_at − now)`, but the code truncates.  With limit 1,
window 60s, window start 0 and a rejected call at t = 57.5, the code returns
`retry_after = 2` while `ceil(60 − 57.5) = 3`. -/
theorem C6_rate_limiter_counterexample :
    check_limit ⟨1, 1, 60⟩ ⟨1, 0, 0⟩ (115/2 : ℚ) =
      (⟨false, 0, 60, some 2⟩, ⟨1, 0, 0⟩) ∧
    (⌈(60 : ℚ) - 115/2⌉ : Int) = 3 ∧ (2 : Int) ≠ 3 := by
  refine ⟨by norm_num [check_limit, pyIntTrunc], ?_, by decide⟩
  rw [Int.ceil_eq_iff]
  constructor <;> norm_num

/-- C6 (amended): within one window the limiter admits exactly the first
`limit` calls and rejects every later one; a rejected call leaves the state
unchanged and returns `retry_after = max 1 (trunc(reset_at − now))`
(truncation, not ceiling), which is always at least 1; once
`now − window_start ≥ window_seconds` the next check resets the window start
and counter, so the full limit is available again. -/
theorem C6_rate_limiter :
    (∀ (cfg : RateLimitConfig) (st : RateLimitState) (ts : List ℚ),
      st.request_count = 0 →
      (∀ t ∈ ts, t - st.window_start < (cfg.window_seconds : ℚ)) →
      (runChecks cfg ts st).1.map (·.allowed) =
        (List.range ts.length).map
          (fun i => decide (i < cfg.requests_per_minute))) ∧
    (∀ (cfg : RateLimitConfig) (st : RateLimitState) (t : ℚ),
      t - st.window_start < (cfg.window_seconds : ℚ) →
      cfg.requests_per_minute ≤ st.request_count →
      check_limit cfg st t =
        (⟨false, 0, st.window_start + (cfg.window_seconds : ℚ),
          some (max 1 (pyIntTrunc
            (st.window_start + (cfg.window_seconds : ℚ) - t)))⟩, st) ∧
      ∀ r, (check_limit cfg st t).1.retry_after = some r → 1 ≤ r) ∧
    (∀ (cfg : RateLimitConfig) (st : RateLimitState) (t : ℚ),
      (cfg.window_seconds : ℚ) ≤ t - st.window_start →
      (check_limit cfg st t).2.window_start = t ∧
      (1 ≤ cfg.requests_per_minute →
        (check_limit cfg st t).1.allowed = true ∧
        (check_limit cfg st t).2.request_count = 1)) := by
  refine ⟨?_, ?_, ?_⟩
  · intro cfg st ts h0 hwin
    have h := (runChecks_window_spec cfg ts st hwin).1
    rw [h, h0]
    simp
  · intro cfg st t hwin hcount
    obtain ⟨c, ws, lr⟩ := st
    have hwin' : t - ws < (cfg.window_seconds : ℚ) := hwin
    have hcount' : cfg.requests_per_minute ≤ c := hcount
    have hno : ¬ (t - ws ≥ (cfg.window_seconds : ℚ)) := by linarith
    have hc : ¬ c < cfg.requests_per_minute := by omega
    have hstep := check_limit_reject_step cfg c ws lr t hno hc
    refine ⟨by simpa using hstep, ?_⟩
    intro r hr
    rw [hstep] at hr
    simp only at hr
    cases hr
    exact le_max_left 1 _
  · intro cfg st t hwin
    obtain ⟨c, ws, lr⟩ := st
    have hge : t - ws ≥ (cfg.window_seconds : ℚ) := hwin
    constructor
    · simp [check_limit, hge]
      split <;> rfl
    · intro hlim
      have hc : 0 < cfg.requests_per_minute := hlim
      simp [check_limit, hge, hc]

/-- Witness for C6 at a concrete configuration: limit 2, window 60s; three
calls inside the window admit the first two and reject the third, and a call
at t = 60 resets the window. -/
theorem C6_rate_limiter_witness :
    (runChecks ⟨2, 2, 60⟩ [1, 2, 3] ⟨0, 0, 0⟩).1.map (·.allowed) =
      [true, true, false] ∧
    (check_limit ⟨2, 2, 60⟩ ⟨2, 0, 0⟩ 60).2.window_start = 60 := by
  constructor
  · have h := C6_rate_limiter.1 ⟨2, 2, 60⟩ ⟨0, 0, 0⟩ [1, 2, 3] rfl
      (by intro u hu; fin_cases hu <;> norm_num)
    rw [h]
    decide
  · exact (C6_rate_limiter.2.2 ⟨2, 2, 60⟩ ⟨2, 0, 0⟩ 60 (by norm_num)).1

theorem mapWrite_unchanged (k : String) (v : RateLimitState) :
    ∀ (ps : List (String × RateLimitState)), k ∉ ps.map (·.1) →
      ps.map (fun q => if q.1 == k then (k, v) else q) = ps := by
  intro ps
  induction ps with
  | nil => intro _; rfl
  | cons q qs ih =>
    intro h
    rw [List.map_cons, List.mem_cons] at h
    push_neg at h
    have hq : (q.1 == k) = false :=
      beq_eq_false_iff_ne.mpr (fun hc => h.1 hc.symm)
    rw [List.map_cons, hq]
    simp only [Bool.false_eq_true, if_false]
    rw [ih h.2]

/-- Keys of a consumer-state dict are unique; under that invariant, writing
back the looked-up value is a no-op. -/
theorem setState_self : ∀ (l : List (String × RateLimitState)) (k : String)
    (v : RateLimitState), (l.map (·.1)).Nodup →
    lookupState l k = some v → setState l k v = l := by
  intro l
  induction l with
  | nil =>
    intro k v _ h
    simp [lookupState] at h
  | cons p ps ih =>
    intro k v hnodup hlook
    obtain ⟨k0, v0⟩ := p
    rw [List.map_cons, List.nodup_cons] at hnodup
    obtain ⟨hk0, hnd⟩ := hnodup
    by_cases hkk : k0 = k
    · subst hkk
      have hv : v = v0 := by
        simp [lookupState, List.find?] at hlook
        exact hlook.symm
      subst hv
      simp only [setState, List.any_cons, beq_self_eq_true, Bool.true_or,
        if_true, List.map_cons]
      rw [mapWrite_unchanged k0 v ps hk0]
    · have hne : (k0 == k) = false := by
        simp only [beq_eq_false_iff_ne, ne_eq]
        exact hkk
      have hlook' : lookupState ps k = some v := by
        simpa [lookupState, List.find?, hne] using hlook
      have hany : ps.any (fun p => p.1 == k) = true := by
        rcases hfind : ps.find? (fun p => p.1 == k) with _ | q
        · simp [lookupState, hfind] at hlook'
        · have hq := List.find?_some hfind
          exact List.any_eq_true.mpr
            ⟨q, List.mem_of_find?_eq_some hfind, by simpa using hq⟩
      have hih := ih k v hnd hlook'
      have hmap : ps.map (fun q => if q.1 == k then (k, v) else q) = ps := by
        simpa [setState, hany] using hih
      have hgoal : setState ((k0, v0) :: ps) k v =
          (if k0 == k then (k, v) else (k0, v0)) ::
            ps.map (fun p => if p.1 == k then (k, v) else p) := by
        simp only [setState, List.any_cons, hany, Bool.or_true, if_true,
          List.map_cons]
      rw [hgoal, hmap, hne]
      simp

/-- C10: a rejected `check_limit` call (window not expired, count at the
limit) leaves the consumer's stored `RateLimitState` entirely unchanged —
the states dict after the call is the one before it, so a rejected request
consumes no quota and does not move the window. -/
theorem C10_reject_frame (lim : RateLimiter) (cid : String) (auth : Bool)
    (now : ℚ) (st : RateLimitState)
    (hnodup : (lim.states.map (·.1)).Nodup)
    (hlook : lookupState lim.states cid = some st)
    (hwin : now - st.window_start <
      (((if auth then lim.authenticated_config
         else lim.anonymous_config).window_seconds : ℚ)))
    (hcount : (if auth then lim.authenticated_config
        else lim.anonymous_config).requests_per_minute ≤ st.request_count) :
    (check_limit_full lim cid auth now).1.allowed = false ∧
    (check_limit_full lim cid auth now).2.states = lim.states := by
  obtain ⟨c, ws, lr⟩ := st
  set cfg := if auth then lim.authenticated_config else lim.anonymous_config
    with hcfg
  have hno : ¬ (now - ws ≥ (cfg.window_seconds : ℚ)) := by
    simp only at hwin
    linarith
  have hc : ¬ c < cfg.requests_per_minute := by
    simp only at hcount
    omega
  have hstep := check_limit_reject_step cfg c ws lr now hno hc
  have hset := setState_self lim.states cid ⟨c, ws, lr⟩ hnodup hlook
  constructor
  · simp only [check_limit_full, ← hcfg, hlook, Option.getD_some, hstep]
  · simp only [check_limit_full, ← hcfg, hlook, Option.getD_some, hstep, hset]

/-- Witness for C10: one consumer at its limit inside the window; the call
is rejected and the stored state is untouched. -/
theorem C10_reject_frame_witness :
    (check_limit_full ⟨⟨1, 1, 60⟩, ⟨1, 1, 60⟩, [("alice", ⟨1, 0, 0⟩)]⟩
      "alice" true 30).1.allowed = false ∧
    (check_limit_full ⟨⟨1, 1, 60⟩, ⟨1, 1, 60⟩, [("alice", ⟨1, 0, 0⟩)]⟩
      "alice" true 30).2.states = [("alice", ⟨1, 0, 0⟩)] :=
  C10_reject_frame ⟨⟨1, 1, 60⟩, ⟨1, 1, 60⟩, [("alice", ⟨1, 0, 0⟩)]⟩ "alice"
    true 30 ⟨1, 0, 0⟩ (by simp) (by rfl) (by norm_num) (by norm_num)

theorem check_conflicts_none_of_agree (specs : List VersionSpecification)
    (hnc : ∀ s₁ ∈ specs, ∀ s₂ ∈ specs, s₁.source = s₂.source →
      s₁.version_id = s₂.version_id) :
    check_same_source_conflicts specs = none := by
  have hfind : specs.find? (fun s =>
      let g := specs.filter (fun t => t.source == s.source)
      g.length > 1 && ((g.map (·.version_id)).toFinset.card > 1)) = none := by
    refine List.find?_eq_none.mpr ?_
    intro x hx
    simp only [Bool.and_eq_true, decide_eq_true_eq, not_and, gt_iff_lt]
    intro _
    have hsub : ((specs.filter (fun t => t.source == x.source)).map
        (·.version_id)).toFinset ⊆ {x.version_id} := by
      intro a ha
      rw [List.mem_toFinset, List.mem_map] at ha
      obtain ⟨t, htmem, rfl⟩ := ha
      rw [List.mem_filter] at htmem
      have hsrc : t.source = x.source := by simpa using htmem.2
      rw [Finset.mem_singleton]
      exact hnc t htmem.1 x hx hsrc
    have hcard := Finset.card_le_card hsub
    rw [Finset.card_singleton] at hcard
    omega
  simp [check_same_source_conflicts, hfind]

theorem resolve_no_conflict (specs : List VersionSpecification) (d : String)
    (hne : specs ≠ [])
    (hnc : ∀ s₁ ∈ specs, ∀ s₂ ∈ specs, s₁.source = s₂.source →
      s₁.version_id = s₂.version_id) :
    ∃ s ∈ specs, resolve_version_precedence specs d = .ok s.version_id ∧
      ∀ t ∈ specs, s.precedence_rank ≤ t.precedence_rank := by
  have hchk := check_conflicts_none_of_agree specs hnc
  have hempty : specs.isEmpty = false := by
    cases specs with
    | nil => exact absurd rfl hne
    | cons a l => rfl
  rcases hsorted : pySorted
      (fun a b => a.precedence_rank ≤ b.precedence_rank) specs with _ | ⟨s, rest⟩
  · exfalso
    have hlen := length_pySorted
      (fun a b : VersionSpecification => a.precedence_rank ≤ b.precedence_rank) specs
    rw [hsorted] at hlen
    cases specs with
    | nil => exact hne rfl
    | cons a l => simp at hlen
  · have hsmem : s ∈ specs := by
      rw [← mem_pySorted (fun a b : VersionSpecification =>
        a.precedence_rank ≤ b.precedence_rank) s specs, hsorted]
      exact List.mem_cons_self s rest
    refine ⟨s, hsmem, ?_, ?_⟩
    · simp [resolve_version_precedence, hempty, hchk, hsorted]
    · have hpw := pairwise_pySorted
        (fun a b : VersionSpecification => a.precedence_rank ≤ b.precedence_rank)
        (by intro a b c hab hbc
            simp only [decide_eq_true_eq] at hab hbc ⊢
            omega)
        (by intro a b
            rcases Nat.le_total a.precedence_rank b.precedence_rank with h | h
              <;> simp [h])
        specs
      rw [hsorted, List.pairwise_cons] at hpw
      intro t htmem
      rw [← mem_pySorted (fun a b : VersionSpecification =>
        a.precedence_rank ≤ b.precedence_rank) t specs, hsorted] at htmem
      rcases List.mem_cons.mp htmem with rfl | htmem
      · exact Nat.le_refl _
      · simpa using hpw.1 t htmem

theorem conflict_error_of_pair (specs : List VersionSpecification) (d : String)
    (s₁ s₂ : VersionSpecification) (h₁ : s₁ ∈ specs) (h₂ : s₂ ∈ specs)
    (hsrc : s₁.source = s₂.source) (hvne : s₁.version_id ≠ s₂.version_id) :
    ∃ e, resolve_version_precedence specs d = .error e ∧ ∃ src,
      (specs.filter (fun t => t.source == src)).length > 1 ∧
      (((specs.filter (fun t => t.source == src)).map
        (·.version_id)).toFinset.card > 1) ∧
      e = ⟨format_conflict_message src (specs.filter (fun t => t.source == src)),
        (specs.filter (fun t => t.source == src)).map
          (fun t => (asciiUpper t.source.value, t.version_id,
            format_source_detail t))⟩ := by
  have hs12 : s₁ ≠ s₂ := fun h => hvne (by rw [h])
  have hg1 : s₁ ∈ specs.filter (fun t => t.source == s₁.source) := by
    rw [List.mem_filter]
    exact ⟨h₁, by simp⟩
  have hg2 : s₂ ∈ specs.filter (fun t => t.source == s₁.source) := by
    rw [List.mem_filter]
    exact ⟨h₂, by simp [hsrc.symm]⟩
  have hglen : 1 < (specs.filter (fun t => t.source == s₁.source)).length := by
    have hsub : ({s₁, s₂} : Finset VersionSpecification) ⊆
        (specs.filter (fun t => t.source == s₁.source)).toFinset := by
      intro a ha
      rw [Finset.mem_insert, Finset.mem_singleton] at ha
      rw [List.mem_toFinset]
      rcases ha with rfl | rfl
      · exact hg1
      · exact hg2
    have h2 := Finset.card_le_card hsub
    rw [Finset.card_pair hs12] at h2
    have h3 := List.toFinset_card_le
      (specs.filter (fun t => t.source == s₁.source))
    omega
  have hidcard : 1 < ((specs.filter (fun t => t.source == s₁.source)).map
      (·.version_id)).toFinset.card := by
    have hsub : ({s₁.version_id, s₂.version_id} : Finset String) ⊆
        ((specs.filter (fun t => t.source == s₁.source)).map
          (·.version_id)).toFinset := by
      intro a ha
      rw [Finset.mem_insert, Finset.mem_singleton] at ha
      rw [List.mem_toFinset, List.mem_map]
      rcases ha with rfl | rfl
      · exact ⟨s₁, hg1, rfl⟩
      · exact ⟨s₂, hg2, rfl⟩
    have h2 := Finset.card_le_card hsub
    rw [Finset.card_pair hvne] at h2
    omega
  have hpred : (fun s =>
      let g := specs.filter (fun t => t.source == s.source)
      g.length > 1 && ((g.map (·.version_id)).toFinset.card > 1)) s₁ = true := by
    simp only [Bool.and_eq_true, decide_eq_true_eq]
    exact ⟨hglen, hidcard⟩
  have hsome : (specs.find? (fun s =>
      let g := specs.filter (fun t => t.source == s.source)
      g.length > 1 && ((g.map (·.version_id)).toFinset.card > 1))).isSome := by
    rw [List.find?_isSome]
    exact ⟨s₁, h₁, hpred⟩
  obtain ⟨x, hx⟩ := Option.isSome_iff_exists.mp hsome
  have hpredx := List.find?_some hx
  simp only [Bool.and_eq_true, decide_eq_true_eq] at hpredx
  have hempty : specs.isEmpty = false := by
    cases specs with
    | nil => cases h₁
    | cons a l => rfl
  refine ⟨_, ?_, x.source, hpredx.1, hpredx.2, rfl⟩
  simp [resolve_version_precedence, check_same_source_conflicts, hempty, hx]

/-- C2: precedence resolution returns the configured default on an empty
candidate list; otherwise, absent same-source conflicts, it returns the
version id of a specification of lowest `precedence_rank`; in particular
header=`v2` (rank 1), url=`v1` (rank 2), query=`v3` (rank 3) with default
`v1` resolve to `v2`. -/
theorem C2_precedence :
    (∀ d, resolve_version_precedence [] d = .ok d) ∧
    (∀ (specs : List VersionSpecification) (d : String), specs ≠ [] →
      (∀ s₁ ∈ specs, ∀ s₂ ∈ specs, s₁.source = s₂.source →
        s₁.version_id = s₂.version_id) →
      ∃ s ∈ specs, resolve_version_precedence specs d = .ok s.version_id ∧
        ∀ t ∈ specs, s.precedence_rank ≤ t.precedence_rank) ∧
    resolve_version_precedence
      [⟨"v2", .header, "v2", 1⟩, ⟨"v1", .url_path, "v1", 2⟩,
       ⟨"v3", .query_param, "v3", 3⟩] "v1" = .ok "v2" := by
  refine ⟨fun d => rfl, resolve_no_conflict, by decide⟩

/-- Witness for C2: a header and a url candidate with distinct sources
resolve to the header's version id, whose rank 1 is minimal. -/
theorem C2_precedence_witness :
    ∃ s ∈ [(⟨"v2", SpecificationSource.header, "v2", 1⟩ : VersionSpecification),
        ⟨"v1", .url_path, "v1", 2⟩],
      resolve_version_precedence
        [⟨"v2", .header, "v2", 1⟩, ⟨"v1", .url_path, "v1", 2⟩] "v1" =
          .ok s.version_id ∧
      ∀ t ∈ [(⟨"v2", SpecificationSource.header, "v2", 1⟩ : VersionSpecification),
          ⟨"v1", .url_path, "v1", 2⟩],
        s.precedence_rank ≤ t.precedence_rank := by
  refine C2_precedence.2.1 _ "v1" (by decide) ?_
  intro s₁ h₁ s₂ h₂ hsrc
  fin_cases h₁ <;> fin_cases h₂ <;> first | rfl | (exact absurd hsrc (by decide))

theorem extract_from_header_source :
    ∀ (l : List (String × String)) (s : VersionSpecification),
      extract_from_header l = some s → s.source = .header := by
  intro l
  induction l with
  | nil =>
    intro s h
    exact Option.noConfusion h
  | cons p ps ih =>
    intro s h
    obtain ⟨n, v⟩ := p
    simp only [extract_from_header] at h
    split at h
    · split at h
      · cases Option.some.inj h
        rfl
      · exact ih s h
    · exact ih s h

theorem extract_from_url_source (path : String) (s : VersionSpecification)
    (h : extract_from_url path = some s) : s.source = .url_path := by
  unfold extract_from_url at h
  split at h
  · rename_i lc c1 c2 rest hpath
    split at h
    · dsimp only at h
      split at h
      · exact Option.noConfusion h
      · rcases hdw : List.dropWhile Char.isDigit rest with _ | ⟨t, ts⟩
        · rw [hdw] at h
          exact Option.noConfusion h
        · rw [hdw] at h
          dsimp only at h
          split at h
          · cases Option.some.inj h
            rfl
          · split at h
            · split at h
              · cases Option.some.inj h
                rfl
              · exact Option.noConfusion h
            · exact Option.noConfusion h
    · exact Option.noConfusion h
  · exact Option.noConfusion h

theorem extract_from_query_source (q : String) (s : VersionSpecification)
    (h : extract_from_query q = some s) : s.source = .query_param := by
  unfold extract_from_query at h
  split at h
  · exact Option.noConfusion h
  · split at h
    · dsimp only at h
      split at h
      · cases Option.some.inj h
        rfl
      · exact Option.noConfusion h
    · exact Option.noConfusion h

/-- C3 counterexample: the claim's request-level example fails on the code.
A request carrying the two version-header values `v1` and `v2` (under the
two recognized header names) yields a single header candidate — the first
recognized header wins — so resolution succeeds with `v1` and no
`VersionConflict` is raised. -/
theorem C3_same_source_conflict_counterexample :
    extract_version_from_request
      ⟨"/users", "", [("x-api-version", "v1"), ("api-version", "v2")]⟩ =
      [⟨"v1", .header, "v1", 1⟩] ∧
    resolve_version_precedence
      (extract_version_from_request
        ⟨"/users", "", [("x-api-version", "v1"), ("api-version", "v2")]⟩)
      "v1" = .ok "v1" := by
  constructor
  · decide
  · decide

/-- C3 (amended): at the resolver level, two or more same-source candidates
with differing values make resolution fail with a `VersionConflict` whose
details name that source's candidates and every conflicting value, while
inputs whose same-source candidates all agree always resolve without this
error (cross-source disagreement is settled by rank); two header-source
candidates `v1` and `v2` given directly to the resolver produce a
`VersionConflict` naming both.  At the request level, header extraction
yields at most one header candidate (the first recognized header wins), so
a request carrying two version-header values does not produce a
`VersionConflict`. -/
theorem C3_same_source_conflict :
    (∀ (specs : List VersionSpecification) (d : String)
        (s₁ s₂ : VersionSpecification), s₁ ∈ specs → s₂ ∈ specs →
      s₁.source = s₂.source → s₁.version_id ≠ s₂.version_id →
      ∃ e, resolve_version_precedence specs d = .error e ∧ ∃ src,
        (specs.filter (fun t => t.source == src)).length > 1 ∧
        (((specs.filter (fun t => t.source == src)).map
          (·.version_id)).toFinset.card > 1) ∧
        e = ⟨format_conflict_message src
            (specs.filter (fun t => t.source == src)),
          (specs.filter (fun t => t.source == src)).map
            (fun t => (asciiUpper t.source.value, t.version_id,
              format_source_detail t))⟩) ∧
    (∀ (specs : List VersionSpecification) (d : String),
      (∀ s₁ ∈ specs, ∀ s₂ ∈ specs, s₁.source = s₂.source →
        s₁.version_id = s₂.version_id) →
      (resolve_version_precedence specs d).isOk = true) ∧
    resolve_version_precedence
      [⟨"v1", .header, "v1", 1⟩, ⟨"v2", .header, "v2", 1⟩] "v1" =
      .error ⟨String.append "Contradictory version headers detected: v1, v2. "
          "Multiple version headers present with different values.",
        [("HEADER", "v1", "X-API-Version or API-Version header"),
         ("HEADER", "v2", "X-API-Version or API-Version header")]⟩ ∧
    (∀ scope : Scope,
      ((extract_version_from_request scope).filter
        (fun s => s.source == SpecificationSource.header)).length ≤ 1) := by
  refine ⟨?_, ?_, by decide, ?_⟩
  · intro specs d s₁ s₂ h₁ h₂ hsrc hvne
    exact conflict_error_of_pair specs d s₁ s₂ h₁ h₂ hsrc hvne
  · intro specs d hnc
    cases hsp : specs with
    | nil => rfl
    | cons a l =>
      obtain ⟨s, _, hok, _⟩ := resolve_no_conflict specs d
        (by rw [hsp]; exact List.cons_ne_nil a l) hnc
      rw [← hsp, hok]
      rfl
  · intro scope
    unfold extract_version_from_request
    rw [List.filter_append, List.filter_append, List.length_append,
      List.length_append]
    have h1 : ((extract_from_header (pyDictOfPairs scope.headers)).toList.filter
        (fun s => s.source == SpecificationSource.header)).length ≤ 1 := by
      rcases extract_from_header (pyDictOfPairs scope.headers) with _ | s
      · simp
      · simp only [Option.toList_some]
        rcases hps : (s.source == SpecificationSource.header) with _ | _ <;>
          simp [List.filter, hps]
    have h2 : ((extract_from_url scope.path).toList.filter
        (fun s => s.source == SpecificationSource.header)).length = 0 := by
      rcases hu : extract_from_url scope.path with _ | s
      · simp
      · have hs := extract_from_url_source scope.path s hu
        simp only [Option.toList_some, List.filter, hs]
        rfl
    have h3 : ((extract_from_query scope.query_string).toList.filter
        (fun s => s.source == SpecificationSource.header)).length = 0 := by
      rcases hq : extract_from_query scope.query_string with _ | s
      · simp
      · have hs := extract_from_query_source scope.query_string s hq
        simp only [Option.toList_some, List.filter, hs]
        rfl
    omega

/-- Witness for C3 at a concrete resolver input: a header candidate and a
url candidate with the same value resolve without a conflict error. -/
theorem C3_same_source_conflict_witness :
    (resolve_version_precedence
      [⟨"v1", SpecificationSource.header, "v1", 1⟩,
       ⟨"v1", .url_path, "v1", 2⟩] "v2").isOk = true := by
  refine C3_same_source_conflict.2.1 _ "v2" ?_
  intro s₁ h₁ s₂ h₂ hsrc
  fin_cases h₁ <;> fin_cases h₂ <;> rfl

theorem is_sunset_eq_true_iff (md : VersionMetadata) (today : Date) :
    is_sunset md today = true ↔
      (md.status = .sunset ∨
        ∃ sd, md.sunset_date = some sd ∧ Date.ltB sd today = true) := by
  unfold is_sunset
  split_ifs with h
  · simp [h]
  · cases hs : md.sunset_date with
    | none => simp [h, hs]
    | some sd => simp [h, hs]

/-- C4: whenever the pipeline's earlier stages succeed (resolution, format
validation, registry lookup) and the looked-up metadata has status `sunset`
or a sunset date strictly before today, the request is rejected with a
`Sunset` error carrying the sunset date, the recommended version and the
migration URL — despite the id being valid and the version existing; when
neither condition holds the sunset check never rejects. -/
theorem C4_sunset_enforcement (st : RegState) (d : String) (scope : Scope)
    (today : Date) (vid0 : String) (md : VersionMetadata)
    (hres : resolve_version_precedence (extract_version_from_request scope) d =
      .ok vid0)
    (hval : (validate_version_format (sanitize_version_id vid0)).1 = true)
    (hlook : get_version st (sanitize_version_id vid0) = some md) :
    ((md.status = .sunset ∨
        ∃ sd, md.sunset_date = some sd ∧ Date.ltB sd today = true) →
      middlewareProcess st d scope today =
        .sunset_rejection ⟨sanitize_version_id vid0,
          (match md.sunset_date with
           | some sd => sd.isoformat
           | none => "unknown"),
          md.breaking_changes_from, md.migration_guide_url⟩) ∧
    (md.status ≠ .sunset →
      (∀ sd, md.sunset_date = some sd → Date.ltB sd today = false) →
      ∀ e, middlewareProcess st d scope today ≠ .sunset_rejection e) := by
  rcases hvv : validate_version_format (sanitize_version_id vid0) with ⟨b, msg⟩
  have hb : b = true := by
    rw [hvv] at hval
    exact hval
  subst hb
  constructor
  · intro hsun
    have hsb : is_sunset md today = true := (is_sunset_eq_true_iff md today).mpr hsun
    simp only [middlewareProcess, hres, hvv, hlook, hsb, if_true]
  · intro hst hsd e
    have hsb : is_sunset md today = false := by
      rcases hx : is_sunset md today with _ | _
      · rfl
      · rcases (is_sunset_eq_true_iff md today).mp hx with h | ⟨sd, hsome, hlt⟩
        · exact absurd h hst
        · rw [hsd sd hsome] at hlt
          exact Bool.noConfusion hlt
    simp only [middlewareProcess, hres, hvv, hlook, hsb, Bool.false_eq_true,
      if_false]
    split_ifs with hpre
    · split
      · intro hc
        exact MWResult.noConfusion hc
      · intro hc
        exact MWResult.noConfusion hc
    · intro hc
      exact MWResult.noConfusion hc

/-- Witness for C4: a registry holding a sunset `v1` rejects a request
selecting `v1` by header, with the error carrying the sunset date, the
recommended version and the migration URL. -/
theorem C4_sunset_enforcement_witness :
    middlewareProcess
      ⟨[("v1", ⟨"v1", .sunset, ⟨2020, 1, 1⟩, some ⟨2021, 1, 1⟩,
        some ⟨2022, 1, 2⟩, "", [], some "v2", some "/docs/m", false⟩)],
        none, none, none⟩
      "v1" ⟨"/", "", [("x-api-version", "v1")]⟩ ⟨2025, 1, 1⟩ =
      .sunset_rejection ⟨"v1", "2022-01-02", some "v2", some "/docs/m"⟩ := by
  have h := (C4_sunset_enforcement
    ⟨[("v1", ⟨"v1", .sunset, ⟨2020, 1, 1⟩, some ⟨2021, 1, 1⟩,
      some ⟨2022, 1, 2⟩, "", [], some "v2", some "/docs/m", false⟩)],
      none, none, none⟩
    "v1" ⟨"/", "", [("x-api-version", "v1")]⟩ ⟨2025, 1, 1⟩ "v1"
    ⟨"v1", .sunset, ⟨2020, 1, 1⟩, some ⟨2021, 1, 1⟩, some ⟨2022, 1, 2⟩, "",
      [], some "v2", some "/docs/m", false⟩
    (by decide) (by decide) (by decide)).1 (Or.inl rfl)
  rw [h]
  decide

theorem isoformat_ne_empty (d : Date) : (d.isoformat == "") = false := by
  rw [beq_eq_false_iff_ne]
  intro h
  have hx := congrArg String.data h
  simp [Date.isoformat] at hx

theorem parse_to_dict_eval (m : VersionMetadata)
    (hrel : m.release_date.validB = true)
    (hdep : ∀ d, m.deprecation_date = some d → d.validB = true)
    (hsun : ∀ d, m.sunset_date = some d → d.validB = true) :
    parse_version_metadata m.version_id m.to_dict =
      mkVersionMetadata m.version_id m.status m.release_date
        m.deprecation_date m.sunset_date m.description
        ((pySorted (fun a b : String => a ≤ b) m.supported_features).eraseDups)
        m.breaking_changes_from m.migration_guide_url m.opt_in_required := by
  obtain ⟨vid, status, rd, dep, sun, desc, feats, bcf, mgu, oir⟩ := m
  have erel := fromisoformat_isoformat rd hrel
  have estat : parseVersionStatus (VersionStatus.value status) = some status := by
    cases status <;> rfl
  rcases dep with _ | dd <;> rcases sun with _ | sd <;> rcases bcf with _ | bs <;>
    rcases mgu with _ | ms
  all_goals try have edd := fromisoformat_isoformat dd (hdep dd rfl)
  all_goals try have esd := fromisoformat_isoformat sd (hsun sd rfl)
  all_goals
    simp [parse_version_metadata, VersionMetadata.to_dict, pyGet,
      parseOptionalDate, parseDateField, JVal.truthy, erel, estat,
      isoformat_ne_empty, Except.map, *]

theorem mkVersionMetadata_ok_swap_feats (vid : String) (st : VersionStatus)
    (rd : Date) (dep sun : Option Date) (desc : String) (f1 f2 : List String)
    (bcf mgu : Option String) (oir : Bool)
    (h : (mkVersionMetadata vid st rd dep sun desc f1 bcf mgu oir).isOk = true) :
    mkVersionMetadata vid st rd dep sun desc f2 bcf mgu oir =
      .ok ⟨vid, st, rd, dep, sun, desc, f2, bcf, mgu, oir⟩ := by
  rcases dep with _ | dd <;> rcases sun with _ | sd <;> rcases mgu with _ | ms <;>
    (simp only [mkVersionMetadata] at h ⊢; split_ifs at h ⊢ <;> simp_all)

/-- C9: serialising a valid `VersionMetadata` with `to_dict` and re-parsing
the resulting dictionary with the registry's metadata parsing yields a
metadata value with the same `version_id`, `status`, `release_date`,
`deprecation_date` and `sunset_date`. -/
theorem C9_round_trip (m : VersionMetadata)
    (hrel : m.release_date.validB = true)
    (hdep : ∀ d, m.deprecation_date = some d → d.validB = true)
    (hsun : ∀ d, m.sunset_date = some d → d.validB = true)
    (hwf : mkVersionMetadata m.version_id m.status m.release_date
      m.deprecation_date m.sunset_date m.description m.supported_features
      m.breaking_changes_from m.migration_guide_url m.opt_in_required = .ok m) :
    ∃ m', parse_version_metadata m.version_id m.to_dict = .ok m' ∧
      m'.version_id = m.version_id ∧ m'.status = m.status ∧
      m'.release_date = m.release_date ∧
      m'.deprecation_date = m.deprecation_date ∧
      m'.sunset_date = m.sunset_date := by
  have heval := parse_to_dict_eval m hrel hdep hsun
  have hswap := mkVersionMetadata_ok_swap_feats m.version_id m.status
    m.release_date m.deprecation_date m.sunset_date m.description
    m.supported_features
    ((pySorted (fun a b : String => a ≤ b) m.supported_features).eraseDups)
    m.breaking_changes_from m.migration_guide_url m.opt_in_required
    (by rw [hwf]; rfl)
  exact ⟨_, heval.trans hswap, rfl, rfl, rfl, rfl, rfl⟩

/-- Witness for C9: a deprecated version with both dates, features,
breaking-change reference and migration URL round-trips. -/
theorem C9_round_trip_witness :
    ∃ m', parse_version_metadata "v1"
      (VersionMetadata.to_dict ⟨"v1", .deprecated, ⟨2024, 6, 1⟩,
        some ⟨2025, 1, 1⟩, some ⟨2026, 1, 1⟩, "old", ["b", "a"], some "v0",
        some "/docs/m", true⟩) = .ok m' ∧
      m'.version_id = "v1" ∧ m'.status = .deprecated ∧
      m'.release_date = ⟨2024, 6, 1⟩ ∧
      m'.deprecation_date = some ⟨2025, 1, 1⟩ ∧
      m'.sunset_date = some ⟨2026, 1, 1⟩ := by
  have h := C9_round_trip ⟨"v1", .deprecated, ⟨2024, 6, 1⟩, some ⟨2025, 1, 1⟩,
    some ⟨2026, 1, 1⟩, "old", ["b", "a"], some "v0", some "/docs/m", true⟩
    (by decide) (by decide) (by decide) (by decide)
  exact h

theorem find?_eq_head_filter (p : α → Bool) (l : List α) :
    l.find? p = (l.filter p).head? := by
  induction l with
  | nil => rfl
  | cons x xs ih =>
    rcases h : p x with _ | _
    · rw [List.find?_cons, List.filter_cons, h]
      simp only [Bool.false_eq_true, if_false]
      exact ih
    · rw [List.find?_cons, List.filter_cons, h]
      simp

set_option maxRecDepth 16000 in
theorem mk_ok_fields (vid : String) (st : VersionStatus) (rd : Date)
    (dep sun : Option Date) (desc : String) (f : List String)
    (bcf mgu : Option String) (oir : Bool) (md : VersionMetadata)
    (h : mkVersionMetadata vid st rd dep sun desc f bcf mgu oir = .ok md) :
    md = ⟨vid, st, rd, dep, sun, desc, f, bcf, mgu, oir⟩ := by
  rcases dep with _ | dd <;> rcases sun with _ | sd <;> rcases mgu with _ | ms <;>
    (simp only [mkVersionMetadata] at h
     split_ifs at h <;>
       first
         | exact (Except.ok.inj h).symm
         | exact Except.noConfusion h)

theorem parseVersionStatus_current (s : String) :
    parseVersionStatus s = some .current ↔ s = "current" := by
  unfold parseVersionStatus
  split_ifs with h1 h2 h3 h4 <;> simp_all

theorem parse_status_current (vid : String) (d : PyDict) (md : VersionMetadata)
    (h : parse_version_metadata vid d = .ok md) :
    (md.status == VersionStatus.current) =
      (pyGet d "status" == some (JVal.jstr "current")) := by
  unfold parse_version_metadata at h
  rcases hg : pyGet d "status" with _ | sv
  · rw [hg] at h
    exact Except.noConfusion h
  · rw [hg] at h
    rcases hr : pyGet d "release_date" with _ | rv
    · rw [hr] at h
      dsimp only at h
      exact Except.noConfusion h
    · rw [hr] at h
      rcases sv with s | _ | b | xs
      case jnull =>
        dsimp only at h
        exact Except.noConfusion h
      case jbool =>
        dsimp only at h
        exact Except.noConfusion h
      case jlist =>
        dsimp only at h
        exact Except.noConfusion h
      case jstr =>
        dsimp only at h
        rcases hs : parseVersionStatus s with _ | status
        · rw [hs] at h
          dsimp only at h
          exact Except.noConfusion h
        · rw [hs] at h
          dsimp only at h
          rcases hrel : parseDateField rv "release_date" with e | rd
          · rw [hrel] at h
            dsimp only at h
            exact Except.noConfusion h
          · rw [hrel] at h
            dsimp only at h
            rcases hdep : parseOptionalDate d "deprecation_date" with e | dep
            · rw [hdep] at h
              dsimp only at h
              exact Except.noConfusion h
            · rw [hdep] at h
              dsimp only at h
              rcases hsun : parseOptionalDate d "sunset_date" with e | sun
              · rw [hsun] at h
                dsimp only at h
                exact Except.noConfusion h
              · rw [hsun] at h
                dsimp only at h
                have hmd := mk_ok_fields _ _ _ _ _ _ _ _ _ _ _ h
                have hstatus : md.status = status := by rw [hmd]
                by_cases hcur : s = "current"
                · subst hcur
                  have : status = .current := by
                    have := (parseVersionStatus_current "current").mpr rfl
                    rw [hs] at this
                    exact Option.some.inj this
                  simp [hstatus, this]
                · have hnc : status ≠ .current := by
                    intro hc
                    rw [hc] at hs
                    exact hcur ((parseVersionStatus_current s).mp hs)
                  simp [hstatus, hnc, hcur]

theorem parseAll_current_count :
    ∀ (cfg : List (String × PyDict)) (ms : List (String × VersionMetadata)),
      parseAllVersions cfg = .ok ms →
      (ms.filter (fun p => p.2.status == VersionStatus.current)).length =
        rawCurrentCount cfg := by
  intro cfg
  induction cfg with
  | nil =>
    intro ms h
    cases Except.ok.inj h
    rfl
  | cons e rest ih =>
    intro ms h
    obtain ⟨vid, d⟩ := e
    unfold parseAllVersions at h
    rcases hp : parse_version_metadata vid d with e' | md
    · rw [hp] at h
      exact Except.noConfusion h
    · rw [hp] at h
      rcases hr : parseAllVersions rest with e' | ms'
      · rw [hr] at h
        exact Except.noConfusion h
      · rw [hr] at h
        cases Except.ok.inj h
        have hcur := parse_status_current vid d md hp
        rcases hb : (pyGet d "status" == some (JVal.jstr "current")) with _ | _
        · rw [hb] at hcur
          simp [rawCurrentCount, List.filter_cons, hcur, hb, ih ms' hr]
        · rw [hb] at hcur
          simp only [rawCurrentCount, List.filter_cons, hcur, hb, if_true,
            List.length_cons]
          have := ih ms' hr
          simp only [rawCurrentCount] at this
          omega

theorem refsCheck_none (keys : List String) :
    ∀ (ms : List (String × VersionMetadata)),
      (∀ p ∈ ms, ∀ r, p.2.breaking_changes_from = some r → r ≠ "" →
        r ∈ keys) →
      refsCheck keys ms = none := by
  intro ms
  induction ms with
  | nil => intro _; rfl
  | cons p rest ih =>
    intro h
    obtain ⟨vid, md⟩ := p
    unfold refsCheck
    rcases hb : md.breaking_changes_from with _ | r
    · exact ih (fun q hq => h q (List.mem_cons_of_mem _ hq))
    · have hcond : ¬ (r ≠ "" ∧ r ∉ keys) := by
        by_cases hre : r = ""
        · intro hc
          exact hc.1 hre
        · intro hc
          exact hc.2 (h ⟨vid, md⟩ (List.mem_cons_self _ _) r hb hre)
      dsimp only
      rw [if_neg hcond]
      exact ih (fun q hq => h q (List.mem_cons_of_mem _ hq))

/-- C1: loading a configuration whose entries all satisfy the per-version
invariants (each entry parses to a valid `VersionMetadata`, including
resolvable `breaking_changes_from` references) and which has exactly one
`current` entry succeeds, installs exactly the parsed mapping, and
`get_current_version` afterwards returns that entry; loading any
configuration with zero or more than one raw `current` entries fails, and
the registry mapping, config path and checksum installed before the failed
load remain exactly as they were. -/
theorem C1_registry_load :
    (∀ (cfg : List (String × PyDict)) (st : RegState) (path cks : String)
        (now : Nat) (ms : List (String × VersionMetadata)) (vid0 : String)
        (md0 : VersionMetadata),
      parseAllVersions cfg = .ok ms →
      ms.filter (fun p => p.2.status == VersionStatus.current) =
        [(vid0, md0)] →
      (∀ p ∈ ms, ∀ r, p.2.breaking_changes_from = some r → r ≠ "" →
        r ∈ ms.map (·.1)) →
      load_from_file st cfg path cks now =
        (⟨ms, some path, some now, some cks⟩, none) ∧
      get_current_version ⟨ms, some path, some now, some cks⟩ = some md0) ∧
    (∀ (cfg : List (String × PyDict)) (st : RegState) (path cks : String)
        (now : Nat),
      rawCurrentCount cfg ≠ 1 →
      (load_from_file st cfg path cks now).1 = st ∧
      (load_from_file st cfg path cks now).2.isSome = true) := by
  constructor
  · intro cfg st path cks now ms vid0 md0 hparse hfilter hrefs
    have hne : cfg.isEmpty = false := by
      cases cfg with
      | nil =>
        cases Except.ok.inj hparse
        simp at hfilter
      | cons a l => rfl
    have hload : loadCompute cfg = .ok ms := by
      unfold loadCompute
      rw [hne]
      rw [hparse]
      dsimp only
      rw [hfilter]
      simp only [List.map_cons, List.map_nil, List.length_cons,
        List.length_nil]
      rw [refsCheck_none (ms.map (·.1)) ms hrefs]
      rfl
    constructor
    · simp [load_from_file, hload]
    · unfold get_current_version
      rw [find?_eq_head_filter]
      dsimp only
      rw [hfilter]
      rfl
  · intro cfg st path cks now hrc
    rcases hload : loadCompute cfg with e | vs
    · simp [load_from_file, hload]
    · exfalso
      rcases hp : parseAllVersions cfg with e' | ms
      · rcases hne : cfg.isEmpty with _ | _
        · simp only [loadCompute, hne, Bool.false_eq_true, if_false, hp]
            at hload
          exact Except.noConfusion hload
        · simp only [loadCompute, hne, if_true] at hload
          exact Except.noConfusion hload
      · rcases hne : cfg.isEmpty with _ | _
        · have hcount := parseAll_current_count cfg ms hp
          simp only [loadCompute, hne, Bool.false_eq_true, if_false, hp]
            at hload
          split_ifs at hload with h0 h1
          all_goals
            first
              | exact Except.noConfusion hload
              | (simp only [List.length_map] at h0 h1
                 omega)
        · simp only [loadCompute, hne, if_true] at hload
          exact Except.noConfusion hload

/-- Witness for C1: a one-entry configuration with status `current` loads,
and `get_current_version` returns its metadata; a two-current configuration
fails and preserves the prior state. -/
theorem C1_registry_load_witness :
    load_from_file ⟨[], none, none, none⟩
      [("v1", [("status", .jstr "current"),
               ("release_date", .jstr "2025-01-01")])] "p" "c" 7 =
      (⟨[("v1", ⟨"v1", .current, ⟨2025, 1, 1⟩, none, none, "", [], none,
          none, false⟩)], some "p", some 7, some "c"⟩, none) ∧
    get_current_version ⟨[("v1", ⟨"v1", .current, ⟨2025, 1, 1⟩, none, none,
        "", [], none, none, false⟩)], some "p", some 7, some "c"⟩ =
      some ⟨"v1", .current, ⟨2025, 1, 1⟩, none, none, "", [], none, none,
        false⟩ ∧
    (load_from_file ⟨[], none, none, none⟩
      [("v1", [("status", .jstr "current"),
               ("release_date", .jstr "2025-01-01")]),
       ("v2", [("status", .jstr "current"),
               ("release_date", .jstr "2025-01-01")])] "p" "c" 7).1 =
      ⟨[], none, none, none⟩ := by
  have h1 := C1_registry_load.1
    [("v1", [("status", .jstr "current"),
             ("release_date", .jstr "2025-01-01")])]
    ⟨[], none, none, none⟩ "p" "c" 7
    [("v1", ⟨"v1", .current, ⟨2025, 1, 1⟩, none, none, "", [], none, none,
      false⟩)] "v1"
    ⟨"v1", .current, ⟨2025, 1, 1⟩, none, none, "", [], none, none, false⟩
    (by decide) (by decide)
    (by
      intro p hp r hsome
      fin_cases hp
      exact Option.noConfusion hsome)
  have h2 := (C1_registry_load.2
    [("v1", [("status", .jstr "current"),
             ("release_date", .jstr "2025-01-01")]),
     ("v2", [("status", .jstr "current"),
             ("release_date", .jstr "2025-01-01")])]
    ⟨[], none, none, none⟩ "p" "c" 7 (by decide)).1
  exact ⟨h1.1, h1.2, h2⟩

end ApiVersioning
